import Mathlib

/-!
Verification development for the `Database` storage service of the
bot-prodazh repository (`src/bot-prodazh/database.py`).

The Python class keeps five in-memory collections (users, ads, favorites,
subscriptions, price offers) plus a `bot_open` flag and two monotonic id
counters, and optionally mirrors them to JSON files.  We embed the state as
an explicit record and every method as a pure function over it.  Python
dicts are modelled as insertion-ordered association lists, Python sets of
ad ids as duplicate-free lists, datetimes as natural numbers (instants),
and dynamically typed scalar dict values as the `PyVal` sum type.
-/

set_option autoImplicit false

namespace BotDB

/-! ## Definitions: the shallow embedding of `database.py` -/

/-- Dynamically typed scalar values stored in the Python dicts:
strings, ints, booleans, `datetime` instants (as `Nat`) and `None`. -/
inductive PyVal where
  | str (s : String)
  | int (n : Int)
  | bool (b : Bool)
  | time (t : Nat)
  | null
  deriving DecidableEq, Repr

/-- Python truthiness for the values of `PyVal` (used by `x or y`). -/
def PyVal.truthy : PyVal → Bool
  | .str s => s ≠ ""
  | .int n => n ≠ 0
  | .bool b => b
  | .time _ => true
  | .null => false

/-- Model of Python's `x or y` on scalar values. -/
def pyOr (x d : PyVal) : PyVal := if x.truthy then x else d

/-- Is the value a `datetime`? -/
def PyVal.isTime : PyVal → Bool
  | .time _ => true
  | _ => false

/-- Is the value a string? -/
def PyVal.isStr : PyVal → Bool
  | .str _ => true
  | _ => false

/-- Lookup in an insertion-ordered map (`d.get(k)` / `k in d`). -/
def aget {α : Type} : List (Nat × α) → Nat → Option α
  | [], _ => none
  | (k', v) :: rest, k => if k' = k then some v else aget rest k

/-- Assignment `d[k] = v`: overwrite in place, or append if the key is new. -/
def aset {α : Type} : List (Nat × α) → Nat → α → List (Nat × α)
  | [], k, v => [(k, v)]
  | (k', v') :: rest, k, v =>
    if k' = k then (k, v) :: rest else (k', v') :: aset rest k v

/-- Deletion `d.pop(k, None)`. -/
def adel {α : Type} : List (Nat × α) → Nat → List (Nat × α)
  | [], _ => []
  | (k', v) :: rest, k => if k' = k then rest else (k', v) :: adel rest k

/-- The keys of the map, in insertion order (`d.keys()`). -/
def akeys {α : Type} (m : List (Nat × α)) : List Nat := m.map Prod.fst

/-- The values of the map, in insertion order (`d.values()`). -/
def avals {α : Type} (m : List (Nat × α)) : List α := m.map Prod.snd

/-- A user record, as built by `add_user` / `update_user_*` /
`update_user_cheque`.  A key that a particular code path leaves absent from
the Python dict is modelled as the value `PyVal.null` (Python's `dict.get`
treats both the same way). -/
structure User where
  user_id : Nat
  username : PyVal
  status : PyVal
  name : PyVal
  phone : PyVal
  city : PyVal
  cheque_file_id : PyVal
  created_at : PyVal
  last_active : PyVal
  deriving DecidableEq, Repr

/-- An ad record, as built by `add_ad` / `_seed_sample_ads`. -/
structure Ad where
  ad_id : Nat
  title : PyVal
  model : PyVal
  year : PyVal
  price : PyVal
  description : PyVal
  photos : List String
  inspection_photos : List String
  thickness_photos : List String
  added_date : Nat
  auction_mode : String
  deriving DecidableEq, Repr

/-- A price-offer record, as built by `add_price_offer`. -/
structure Offer where
  user_id : Nat
  price : Int
  kind : String
  created_at : Nat
  deriving DecidableEq, Repr

/-- A saved-search subscription record, as built by `add_subscription`. -/
structure Sub where
  rowid : Nat
  user_id : Nat
  model : PyVal
  price_min : PyVal
  price_max : PyVal
  year_min : PyVal
  year_max : PyVal
  deriving DecidableEq, Repr

/-- The full in-memory state of the `Database` object: five collections,
the `bot_open` flag and both id counters (`_next_ad_id`,
`_next_subscription_id` in the source). -/
structure DB where
  users : List (Nat × User)
  ads : List (Nat × Ad)
  favorites : List (Nat × List Nat)
  subscriptions : List (Nat × List Sub)
  bot_open : Bool
  next_ad_id : Nat
  next_subscription_id : Nat
  price_offers : List (Nat × List Offer)
  deriving DecidableEq, Repr

/-- The freshly constructed state (`__init__` before `_load_data`). -/
def DB.init : DB :=
  { users := [], ads := [], favorites := [], subscriptions := [],
    bot_open := true, next_ad_id := 1, next_subscription_id := 1,
    price_offers := [] }

/-- The two structural error classes raised by the methods
(`ValueError("... не найдено")` vs `ValueError("Недопустимый ...")` /
`ValueError("Неизвестный тип медиа ...")`). -/
inductive DBError where
  | notFound
  | invalidArgument
  deriving DecidableEq, Repr

/-- The default user dict inserted by `add_user` (absent branch) and by the
`setdefault` calls of `update_user_contact` / `update_user_status` /
`update_last_active` / `update_username`. -/
def mkDefaultUser (user_id : Nat) (username status : PyVal) (now : Nat) : User :=
  { user_id := user_id, username := username, status := status,
    name := .null, phone := .null, city := .null, cheque_file_id := .null,
    created_at := .time now, last_active := .time now }

/-- Model of `Database.add_user`. -/
def add_user (s : DB) (user_id : Nat) (username status : PyVal) (now : Nat) : DB :=
  match aget s.users user_id with
  | none =>
      { s with users := aset s.users user_id (mkDefaultUser user_id username status now) }
  | some u =>
      { s with users := (aset s.users user_id
          { u with username := username, status := status,
                   created_at := pyOr u.created_at (.time now),
                   last_active := pyOr u.last_active (.time now) }) }

/-- Model of `Database.get_user` (the returned dict copy is the value itself here). -/
def get_user (s : DB) (user_id : Nat) : Option User :=
  aget s.users user_id

/-- Model of `Database.update_user_contact`. -/
def update_user_contact (s : DB) (user_id : Nat) (name phone city : PyVal) (now : Nat) : DB :=
  let u := (aget s.users user_id).getD (mkDefaultUser user_id .null (.str "pending") now)
  { s with users := aset s.users user_id { u with name := name, phone := phone, city := city } }

/-- Model of `Database.update_user_status`. -/
def update_user_status (s : DB) (user_id : Nat) (status : PyVal) (now : Nat) : DB :=
  let u := (aget s.users user_id).getD (mkDefaultUser user_id .null status now)
  { s with users := aset s.users user_id { u with status := status } }

/-- Model of `Database.update_last_active`. -/
def update_last_active (s : DB) (user_id : Nat) (now : Nat) : DB :=
  let u := (aget s.users user_id).getD (mkDefaultUser user_id .null (.str "pending") now)
  { s with users := aset s.users user_id { u with last_active := .time now } }

/-- Model of `Database.update_username`. -/
def update_username (s : DB) (user_id : Nat) (username : PyVal) (now : Nat) : DB :=
  if username = .null then s
  else
    match aget s.users user_id with
    | none =>
        { s with users := aset s.users user_id (mkDefaultUser user_id username (.str "pending") now) }
    | some u =>
        if u.username ≠ username then
          { s with users := aset s.users user_id { u with username := username } }
        else s

/-- Model of `Database.is_bot_open`. -/
def is_bot_open (s : DB) : Bool := s.bot_open

/-- Model of `Database.set_bot_state`. -/
def set_bot_state (s : DB) (state : Bool) : DB := { s with bot_open := state }

/-- Model of `Database.add_ad`: assigns the next id, stamps `added_date`, defaults
`auction_mode = 'off'`, and returns the new ad id. -/
def add_ad (s : DB) (title price description : PyVal)
    (photos inspection_photos thickness_photos : Option (List String))
    (model year : PyVal) (now : Nat) : Nat × DB :=
  let ad_id := s.next_ad_id
  let ad : Ad :=
    { ad_id := ad_id, title := title, model := model, year := year,
      price := price, description := description,
      photos := photos.getD [], inspection_photos := inspection_photos.getD [],
      thickness_photos := thickness_photos.getD [],
      added_date := now, auction_mode := "off" }
  (ad_id, { s with next_ad_id := ad_id + 1, ads := aset s.ads ad_id ad })

/-- Model of `Database.append_ad_media`. -/
def append_ad_media (s : DB) (ad_id : Nat) (file_id : String) (media_type : String) :
    Except DBError DB :=
  match aget s.ads ad_id with
  | none => .error .notFound
  | some ad =>
      if media_type = "photo" then
        .ok { s with ads := aset s.ads ad_id { ad with photos := ad.photos ++ [file_id] } }
      else if media_type = "inspection" then
        .ok { s with ads := (aset s.ads ad_id
                { ad with inspection_photos := ad.inspection_photos ++ [file_id] }) }
      else if media_type = "thickness" then
        .ok { s with ads := (aset s.ads ad_id
                { ad with thickness_photos := ad.thickness_photos ++ [file_id] }) }
      else .error .invalidArgument

/-- One step of `update_ad`'s loop: `if key in allowed_fields: ad[key] = value`. -/
def apply_ad_field (ad : Ad) (key : String) (value : PyVal) : Ad :=
  if key = "title" then { ad with title := value }
  else if key = "model" then { ad with model := value }
  else if key = "year" then { ad with year := value }
  else if key = "price" then { ad with price := value }
  else if key = "description" then { ad with description := value }
  else ad

/-- The whole update loop of `update_ad` over the supplied fields. -/
def applyFields (ad : Ad) (fields : List (String × PyVal)) : Ad :=
  fields.foldl (fun a kv => apply_ad_field a kv.1 kv.2) ad

/-- Model of `Database.update_ad` (`**fields` becomes an explicit key/value list;
the `raise` for a missing ad happens before any mutation, so the error
branch carries no state change). -/
def update_ad (s : DB) (ad_id : Nat) (fields : List (String × PyVal)) :
    Except DBError DB :=
  match aget s.ads ad_id with
  | none => .error .notFound
  | some ad =>
      .ok { s with ads := (aset s.ads ad_id (applyFields ad fields)) }

/-- Model of `Database.set_auction_mode`. -/
def set_auction_mode (s : DB) (ad_id : Nat) (mode : String) : Except DBError DB :=
  match aget s.ads ad_id with
  | none => .error .notFound
  | some ad =>
      if mode = "off" ∨ mode = "up" ∨ mode = "down" then
        .ok { s with ads := aset s.ads ad_id { ad with auction_mode := mode } }
      else .error .invalidArgument

/-- Model of `Database.add_price_offer` (note: no existence check on the ad id). -/
def add_price_offer (s : DB) (ad_id user_id : Nat) (price : Int) (kind : String)
    (now : Nat) : DB :=
  { s with price_offers := (aset s.price_offers ad_id
      (((aget s.price_offers ad_id).getD []) ++
        [{ user_id := user_id, price := price, kind := kind, created_at := now }])) }

/-- The exact-field match test of `consume_price_offer`'s loop. -/
def offerMatch (o : Offer) (user_id : Nat) (price : Int) (kind : String) : Bool :=
  o.user_id == user_id && o.price == price && o.kind == kind

/-- The scan-and-pop of `consume_price_offer`: remove the first offer in
insertion order matching on all three fields, returning it and the rest. -/
def consumeFromList (l : List Offer) (user_id : Nat) (price : Int) (kind : String) :
    Option (Offer × List Offer) :=
  match l with
  | [] => none
  | o :: rest =>
      if offerMatch o user_id price kind then some (o, rest)
      else
        match consumeFromList rest user_id price kind with
        | some (o', rest') => some (o', o :: rest')
        | none => none

/-- Model of `Database.consume_price_offer`: returns the removed offer (or `none`)
together with the updated state. -/
def consume_price_offer (s : DB) (ad_id user_id : Nat) (price : Int) (kind : String) :
    Option Offer × DB :=
  match consumeFromList ((aget s.price_offers ad_id).getD []) user_id price kind with
  | some (o, rest) => (some o, { s with price_offers := aset s.price_offers ad_id rest })
  | none => (none, s)

/-- Insertion step of the stable descending sort on `added_date`: the new
element is placed after every earlier element with a strictly greater key,
and before the first element whose key is not greater (CPython's
`sorted(..., reverse=True)` keeps the original order of equal keys). -/
def insertDesc (x : Ad) : List Ad → List Ad
  | [] => [x]
  | b :: bs =>
      if x.added_date < b.added_date then b :: insertDesc x bs
      else x :: b :: bs

/-- Stable sort by `added_date` descending, modelling
`sorted(self.ads.values(), key=lambda x: x['added_date'], reverse=True)`. -/
def sortDesc : List Ad → List Ad
  | [] => []
  | a :: as_ => insertDesc a (sortDesc as_)

/-- Model of `Database.get_ads`. -/
def get_ads (s : DB) : List Ad := sortDesc (avals s.ads)

/-- Model of `Database.get_ad`. -/
def get_ad (s : DB) (ad_id : Nat) : Option Ad := aget s.ads ad_id

/-- Model of `Database.delete_ad`: remove the ad if present and discard its id from
every user's favorites set; silently do nothing otherwise. -/
def delete_ad (s : DB) (ad_id : Nat) : DB :=
  if (aget s.ads ad_id).isSome then
    { s with ads := adel s.ads ad_id,
             favorites := s.favorites.map (fun p => (p.1, p.2.filter (fun x => x != ad_id))) }
  else s

/-- Whether `delete_ad` reaches its `_save_data()` call (it sits inside the
`if ad_id in self.ads` branch). -/
def delete_ad_saved (s : DB) (ad_id : Nat) : Bool :=
  (aget s.ads ad_id).isSome

/-- Model of `self.favorites[user_id]` on the `defaultdict(set)`: returns the stored
set, inserting a fresh empty one when the key is absent. -/
def dget (m : List (Nat × List Nat)) (k : Nat) : List Nat × List (Nat × List Nat) :=
  match aget m k with
  | some v => (v, m)
  | none => ([], aset m k [])

/-- Model of `Database.is_favorite`.  The membership answer comes with the state,
because the `defaultdict` access can insert an empty favorites entry. -/
def is_favorite (s : DB) (user_id ad_id : Nat) : Bool × DB :=
  let fv := dget s.favorites user_id
  (fv.1.contains ad_id, { s with favorites := fv.2 })

/-- Model of `Database.add_to_favorites` (no-op when the ad does not exist). -/
def add_to_favorites (s : DB) (user_id ad_id : Nat) : DB :=
  if (aget s.ads ad_id).isSome then
    let fv := dget s.favorites user_id
    { s with favorites := (aset fv.2 user_id
        (if fv.1.contains ad_id then fv.1 else fv.1 ++ [ad_id])) }
  else s

/-- Model of `Database.remove_from_favorites`. -/
def remove_from_favorites (s : DB) (user_id ad_id : Nat) : DB :=
  let fv := dget s.favorites user_id
  if fv.1.contains ad_id then
    { s with favorites := aset fv.2 user_id (fv.1.filter (fun x => x != ad_id)) }
  else
    { s with favorites := fv.2 }

/-- Model of `Database.get_favorite_ads`: ads no longer present are silently
excluded; the `defaultdict` access can insert an empty entry. -/
def get_favorite_ads (s : DB) (user_id : Nat) : List Ad × DB :=
  let fv := dget s.favorites user_id
  (fv.1.filterMap (fun a => aget s.ads a), { s with favorites := fv.2 })

/-- Model of `Database.add_subscription`. -/
def add_subscription (s : DB) (user_id : Nat)
    (model price_min price_max year_min year_max : PyVal) : DB :=
  let rowid := s.next_subscription_id
  let sub : Sub :=
    { rowid := rowid, user_id := user_id, model := model,
      price_min := price_min, price_max := price_max,
      year_min := year_min, year_max := year_max }
  { s with next_subscription_id := rowid + 1,
           subscriptions := (aset s.subscriptions user_id
             (((aget s.subscriptions user_id).getD []) ++ [sub])) }

/-- Model of `Database.get_subscriptions`. -/
def get_subscriptions (s : DB) (user_id : Nat) : List Sub :=
  (aget s.subscriptions user_id).getD []

/-- Model of `Database.get_all_subscriptions`. -/
def get_all_subscriptions (s : DB) : List Sub :=
  s.subscriptions.foldl (fun acc p => acc ++ p.2) []

/-- The loop of `delete_subscription`: filter the first user's list that
contains the rowid, then `break`. -/
def delSubAux : List (Nat × List Sub) → Nat → List (Nat × List Sub)
  | [], _ => []
  | (u, subs) :: rest, rowid =>
      let subs2 := subs.filter (fun sub => sub.rowid != rowid)
      if subs2.length ≠ subs.length then (u, subs2) :: rest
      else (u, subs) :: delSubAux rest rowid

/-- Model of `Database.delete_subscription`. -/
def delete_subscription (s : DB) (rowid : Nat) : DB :=
  { s with subscriptions := delSubAux s.subscriptions rowid }

/-- Model of `Database.update_user_cheque` (its `setdefault` default is the bare
dict `{'user_id': user_id}`: every other field is absent). -/
def update_user_cheque (s : DB) (user_id : Nat) (cheque_file_id : PyVal) : DB :=
  let u := (aget s.users user_id).getD
    { user_id := user_id, username := .null, status := .null, name := .null,
      phone := .null, city := .null, cheque_file_id := .null,
      created_at := .null, last_active := .null }
  { s with users := aset s.users user_id { u with cheque_file_id := cheque_file_id } }

/-- A concrete ad record used by witnesses and counterexamples. -/
def demoAd : Ad :=
  { ad_id := 1, title := .str "Toyota Camry 2.5 AT", model := .str "Camry",
    year := .int 2019, price := .int 17500000, description := .str "demo",
    photos := ["AQADnuQxG"], inspection_photos := [], thickness_photos := [],
    added_date := 10, auction_mode := "off" }

/-- A one-ad state for exercising `set_auction_mode`. -/
def dbC1 : DB := { DB.init with ads := [(1, demoAd)] }

/-- A state with ad 1 present and favorited by user 7. -/
def dbC2 : DB := { DB.init with ads := [(1, demoAd)], favorites := [(7, [1])] }

/-- A concrete price offer for the C4 scenario. -/
def demoOffer : Offer := { user_id := 7, price := 100, kind := "buy", created_at := 0 }

/-- A state whose ad-1 offer list holds two identical offers. -/
def dbC4 : DB := { DB.init with price_offers := [(1, [demoOffer, demoOffer])] }

/-- The state after consuming one of the two identical offers. -/
def dbC4a : DB := (consume_price_offer dbC4 1 7 100 "buy").2

/-- The state after consuming the second one as well. -/
def dbC4b : DB := (consume_price_offer dbC4a 1 7 100 "buy").2

/-- A state holding one ordinary user record. -/
def dbC6 : DB := { DB.init with users := [(7, mkDefaultUser 7 (.str "old") (.str "pending") 3)] }

/-- The value a repeated-keys field list finally assigns to key `k`
(in Python `**fields` keys are unique, but the model is general). -/
def lastVal : List (String × PyVal) → String → Option PyVal
  | [], _ => none
  | kv :: rest, k =>
      match lastVal rest k with
      | some v => some v
      | none => if kv.1 = k then some kv.2 else none

/-- C5 (counterexample): two ads created at the same instant (time 5).
Ad 1 (`A`) is created before ad 2 (`B`); the claim demands `B` before `A`
unconditionally, but Python's stable sort keeps the insertion order of
equal keys, so `get_ads` lists ad 1 first. -/
def dbC5 : DB :=
  (add_ad (add_ad DB.init (.str "A") (.int 1) (.str "dA") none none none
      (.str "mA") (.int 2000) 5).2
    (.str "B") (.int 2) (.str "dB") none none none (.str "mB") (.int 2001) 5).2

/-- The invariant: every ad id in any user's favorites set refers to an ad
currently present in the ad collection. -/
def InvB (s : DB) : Bool :=
  s.favorites.all (fun p => p.2.all (fun a => (aget s.ads a).isSome))

/-- One mutating call into the storage service: each constructor is one
`async def` of `database.py` (for the fallible ones, a successful call). -/
inductive Step : DB → DB → Prop where
  | s_add_user (s : DB) (id : Nat) (un st : PyVal) (now : Nat) :
      Step s (add_user s id un st now)
  | s_update_user_contact (s : DB) (id : Nat) (na ph ci : PyVal) (now : Nat) :
      Step s (update_user_contact s id na ph ci now)
  | s_update_user_status (s : DB) (id : Nat) (st : PyVal) (now : Nat) :
      Step s (update_user_status s id st now)
  | s_update_last_active (s : DB) (id now : Nat) :
      Step s (update_last_active s id now)
  | s_update_username (s : DB) (id : Nat) (un : PyVal) (now : Nat) :
      Step s (update_username s id un now)
  | s_set_bot_state (s : DB) (b : Bool) : Step s (set_bot_state s b)
  | s_add_ad (s : DB) (ti pr de mo ye : PyVal) (ph ip th : Option (List String)) (now : Nat) :
      Step s (add_ad s ti pr de ph ip th mo ye now).2
  | s_append_ad_media (s : DB) (ad_id : Nat) (f m : String) (s' : DB) :
      append_ad_media s ad_id f m = .ok s' → Step s s'
  | s_update_ad (s : DB) (ad_id : Nat) (fields : List (String × PyVal)) (s' : DB) :
      update_ad s ad_id fields = .ok s' → Step s s'
  | s_set_auction_mode (s : DB) (ad_id : Nat) (mode : String) (s' : DB) :
      set_auction_mode s ad_id mode = .ok s' → Step s s'
  | s_add_price_offer (s : DB) (a u : Nat) (p : Int) (k : String) (now : Nat) :
      Step s (add_price_offer s a u p k now)
  | s_consume_price_offer (s : DB) (a u : Nat) (p : Int) (k : String) :
      Step s (consume_price_offer s a u p k).2
  | s_delete_ad (s : DB) (a : Nat) : Step s (delete_ad s a)
  | s_is_favorite (s : DB) (u a : Nat) : Step s (is_favorite s u a).2
  | s_add_to_favorites (s : DB) (u a : Nat) : Step s (add_to_favorites s u a)
  | s_remove_from_favorites (s : DB) (u a : Nat) : Step s (remove_from_favorites s u a)
  | s_get_favorite_ads (s : DB) (u : Nat) : Step s (get_favorite_ads s u).2
  | s_add_subscription (s : DB) (u : Nat) (mo pmin pmax ymin ymax : PyVal) :
      Step s (add_subscription s u mo pmin pmax ymin ymax)
  | s_delete_subscription (s : DB) (rowid : Nat) : Step s (delete_subscription s rowid)
  | s_update_user_cheque (s : DB) (u : Nat) (c : PyVal) :
      Step s (update_user_cheque s u c)

/-- The decimal digit characters (`d < 10`). -/
def digitChar : Nat → Char
  | 0 => '0' | 1 => '1' | 2 => '2' | 3 => '3' | 4 => '4'
  | 5 => '5' | 6 => '6' | 7 => '7' | 8 => '8' | _ => '9'

def charToDigit (c : Char) : Option Nat :=
  if 48 ≤ c.toNat ∧ c.toNat ≤ 57 then some (c.toNat - 48) else none

/-- Digits of `n`, most significant first, prefixed to `acc`; `fuel` bounds
the recursion depth (any `fuel` with `n < 10 ^ fuel` suffices). -/
def toDecAux : Nat → Nat → List Char → List Char
  | 0, _, acc => acc
  | fuel+1, n, acc =>
    if n < 10 then digitChar n :: acc
    else toDecAux fuel (n / 10) (digitChar (n % 10) :: acc)

/-- Python `str(n)` for a nonnegative integer. -/
def natToDec (n : Nat) : String := String.mk (toDecAux (n + 1) n [])

def decodeCore (a : Nat) : List Char → Option Nat
  | [] => some a
  | c :: cs =>
    match charToDigit c with
    | some d => decodeCore (a * 10 + d) cs
    | none => none

/-- Python `int(s)` on a decimal string (`none` on anything else). -/
def decToNat (s : String) : Option Nat :=
  if s.data.isEmpty then none else decodeCore 0 s.data

/-- Model of `datetime.isoformat`, with instants modelled as integers. -/
def isoformat (t : Nat) : String := natToDec t

/-- Model of `datetime.fromisoformat`, the partial inverse. -/
def fromisoformat (s : String) : Option Nat := decToNat s

/-- Number of digits `toDecAux` will emit for `n` within `fuel`. -/
def numDigitsAux : Nat → Nat → Nat
  | 0, _ => 0
  | fuel+1, n => if n < 10 then 1 else numDigitsAux fuel (n / 10) + 1

/-- JSON documents, as written by `json.dump` and read by `json.load`. -/
inductive JVal where
  | jnull
  | jbool (b : Bool)
  | jint (n : Int)
  | jstr (s : String)
  | jarr (xs : List JVal)
  | jobj (kvs : List (String × JVal))

/-- Key lookup in a JSON object (`dict.get`). -/
def jlookup (kvs : List (String × JVal)) (k : String) : Option JVal :=
  (kvs.find? (fun p => p.1 == k)).map (fun p => p.2)

/-- Serialize one scalar dict value, `datetime`s via `isoformat` (the
`_serialize_datetime` default of `json.dump`). -/
def pyToJ : PyVal → JVal
  | .str s => .jstr s
  | .int n => .jint n
  | .bool b => .jbool b
  | .time t => .jstr (isoformat t)
  | .null => .jnull

/-- Parse a scalar stored under a key that `_deserialize_datetime` does not
touch: the JSON value is taken as is. -/
def jToPyPlain : JVal → PyVal
  | .jstr s => .str s
  | .jint n => .int n
  | .jbool b => .bool b
  | _ => .null

/-- Parse a scalar stored under one of the timestamp keys
(`created_at`, `last_active`, `added_date`, `timestamp`): a string is fed
to `fromisoformat`, and on failure passed through as the raw string. -/
def jToPyTs : JVal → PyVal
  | .jstr s =>
      match fromisoformat s with
      | some t => .time t
      | none => .str s
  | .jint n => .int n
  | .jbool b => .bool b
  | _ => .null

def jNat (j : Option JVal) : Nat :=
  match j with
  | some (.jint n) => n.toNat
  | _ => 0

def jInt (j : Option JVal) : Int :=
  match j with
  | some (.jint n) => n
  | _ => 0

def jPlain (j : Option JVal) : PyVal :=
  match j with
  | some v => jToPyPlain v
  | none => .null

def jTs (j : Option JVal) : PyVal :=
  match j with
  | some v => jToPyTs v
  | none => .null

def jStrD (j : Option JVal) : String :=
  match j with
  | some (.jstr s) => s
  | _ => ""

def jTimeD (j : Option JVal) : Nat :=
  match j with
  | some (.jstr s) => (fromisoformat s).getD 0
  | _ => 0

def jStrList (j : Option JVal) : List String :=
  match j with
  | some (.jarr xs) =>
      xs.map (fun x => match x with | .jstr s => s | _ => "")
  | _ => []

/-- Serialize a user record (the dict written into `users.json`). -/
def userToJ (u : User) : JVal :=
  .jobj [("user_id", .jint u.user_id), ("username", pyToJ u.username),
         ("status", pyToJ u.status), ("name", pyToJ u.name),
         ("phone", pyToJ u.phone), ("city", pyToJ u.city),
         ("cheque_file_id", pyToJ u.cheque_file_id),
         ("created_at", pyToJ u.created_at), ("last_active", pyToJ u.last_active)]

/-- Load a user record (`_deserialize_datetime` applied to the dict). -/
def userFromJ (j : JVal) : User :=
  match j with
  | .jobj kvs =>
      { user_id := jNat (jlookup kvs "user_id"),
        username := jPlain (jlookup kvs "username"),
        status := jPlain (jlookup kvs "status"),
        name := jPlain (jlookup kvs "name"),
        phone := jPlain (jlookup kvs "phone"),
        city := jPlain (jlookup kvs "city"),
        cheque_file_id := jPlain (jlookup kvs "cheque_file_id"),
        created_at := jTs (jlookup kvs "created_at"),
        last_active := jTs (jlookup kvs "last_active") }
  | _ =>
      { user_id := 0, username := .null, status := .null, name := .null,
        phone := .null, city := .null, cheque_file_id := .null,
        created_at := .null, last_active := .null }

/-- Serialize an ad record (the dict written into `ads.json`). -/
def adToJ (ad : Ad) : JVal :=
  .jobj [("ad_id", .jint ad.ad_id), ("title", pyToJ ad.title),
         ("model", pyToJ ad.model), ("year", pyToJ ad.year),
         ("price", pyToJ ad.price), ("description", pyToJ ad.description),
         ("photos", .jarr (ad.photos.map JVal.jstr)),
         ("inspection_photos", .jarr (ad.inspection_photos.map JVal.jstr)),
         ("thickness_photos", .jarr (ad.thickness_photos.map JVal.jstr)),
         ("added_date", .jstr (isoformat ad.added_date)),
         ("auction_mode", .jstr ad.auction_mode)]

/-- Load an ad record (`added_date` goes through the timestamp parse). -/
def adFromJ (j : JVal) : Ad :=
  match j with
  | .jobj kvs =>
      { ad_id := jNat (jlookup kvs "ad_id"),
        title := jPlain (jlookup kvs "title"),
        model := jPlain (jlookup kvs "model"),
        year := jPlain (jlookup kvs "year"),
        price := jPlain (jlookup kvs "price"),
        description := jPlain (jlookup kvs "description"),
        photos := jStrList (jlookup kvs "photos"),
        inspection_photos := jStrList (jlookup kvs "inspection_photos"),
        thickness_photos := jStrList (jlookup kvs "thickness_photos"),
        added_date := jTimeD (jlookup kvs "added_date"),
        auction_mode := jStrD (jlookup kvs "auction_mode") }
  | _ =>
      { ad_id := 0, title := .null, model := .null, year := .null,
        price := .null, description := .null, photos := [],
        inspection_photos := [], thickness_photos := [],
        added_date := 0, auction_mode := "" }

/-- Serialize a price offer (element of `price_offers.json`). -/
def offerToJ (o : Offer) : JVal :=
  .jobj [("user_id", .jint o.user_id), ("price", .jint o.price),
         ("kind", .jstr o.kind), ("created_at", .jstr (isoformat o.created_at))]

def offerFromJ (j : JVal) : Offer :=
  match j with
  | .jobj kvs =>
      { user_id := jNat (jlookup kvs "user_id"),
        price := jInt (jlookup kvs "price"),
        kind := jStrD (jlookup kvs "kind"),
        created_at := jTimeD (jlookup kvs "created_at") }
  | _ => { user_id := 0, price := 0, kind := "", created_at := 0 }

/-- Serialize a subscription (element of `subscriptions.json`; note the
source dumps subscriptions raw, with no datetime handling). -/
def subToJ (sub : Sub) : JVal :=
  .jobj [("rowid", .jint sub.rowid), ("user_id", .jint sub.user_id),
         ("model", pyToJ sub.model), ("price_min", pyToJ sub.price_min),
         ("price_max", pyToJ sub.price_max), ("year_min", pyToJ sub.year_min),
         ("year_max", pyToJ sub.year_max)]

def subFromJ (j : JVal) : Sub :=
  match j with
  | .jobj kvs =>
      { rowid := jNat (jlookup kvs "rowid"),
        user_id := jNat (jlookup kvs "user_id"),
        model := jPlain (jlookup kvs "model"),
        price_min := jPlain (jlookup kvs "price_min"),
        price_max := jPlain (jlookup kvs "price_max"),
        year_min := jPlain (jlookup kvs "year_min"),
        year_max := jPlain (jlookup kvs "year_max") }
  | _ =>
      { rowid := 0, user_id := 0, model := .null, price_min := .null,
        price_max := .null, year_min := .null, year_max := .null }

def parseNatList (j : JVal) : List Nat :=
  match j with
  | .jarr xs => xs.map (fun x => match x with | .jint n => n.toNat | _ => 0)
  | _ => []

def parseSubList (j : JVal) : List Sub :=
  match j with
  | .jarr xs => xs.map subFromJ
  | _ => []

def parseOfferList (j : JVal) : List Offer :=
  match j with
  | .jarr xs => xs.map offerFromJ
  | _ => []

/-- The six JSON documents the adapter keeps on disk. -/
structure Files where
  users_file : JVal
  ads_file : JVal
  favorites_file : JVal
  subscriptions_file : JVal
  price_offers_file : JVal
  state_file : JVal

/-- Model of `Database._save_data`: every collection rewritten in full, keys
stringified, datetimes ISO-serialized, sets dumped as lists. -/
def save (s : DB) : Files :=
  { users_file := .jobj (s.users.map (fun p => (natToDec p.1, userToJ p.2))),
    ads_file := .jobj (s.ads.map (fun p => (natToDec p.1, adToJ p.2))),
    favorites_file := .jobj (s.favorites.map
      (fun p => (natToDec p.1, JVal.jarr (p.2.map (fun a => JVal.jint a))))),
    subscriptions_file := .jobj (s.subscriptions.map
      (fun p => (natToDec p.1, JVal.jarr (p.2.map subToJ)))),
    price_offers_file := .jobj (s.price_offers.map
      (fun p => (natToDec p.1, JVal.jarr (p.2.map offerToJ)))),
    state_file := .jobj [("bot_open", .jbool s.bot_open),
      ("next_ad_id", .jint s.next_ad_id),
      ("next_subscription_id", .jint s.next_subscription_id)] }

/-- One collection loaded from its document: `int(...)` the keys, parse the
values, fill a fresh dict in document order. -/
def loadMap {α : Type} (parse : JVal → α) (j : JVal) : List (Nat × α) :=
  match j with
  | .jobj kvs => kvs.foldl (fun acc p => aset acc ((decToNat p.1).getD 0) (parse p.2)) []
  | _ => []

/-- Model of `Database._load_data` over a full set of documents: collections loaded
in source order, `_next_ad_id` reconstructed from the maximal ad key,
`_next_subscription_id` from the maximal rowid, then both counters and
`bot_open` overridden from `state.json` when its keys are present. -/
def load (f : Files) : DB :=
  let users := loadMap userFromJ f.users_file
  let ads := loadMap adFromJ f.ads_file
  let next_ad_id1 := if ads.isEmpty then 1 else (ads.foldl (fun m p => max m p.1) 0) + 1
  let favorites := loadMap parseNatList f.favorites_file
  let subscriptions := loadMap parseSubList f.subscriptions_file
  let next_sub_id1 :=
    (subscriptions.foldl (fun m p => p.2.foldl (fun m2 sub => max m2 sub.rowid) m) 0) + 1
  let price_offers := loadMap parseOfferList f.price_offers_file
  let bot_open :=
    match f.state_file with
    | .jobj kvs =>
        match jlookup kvs "bot_open" with
        | some (.jbool b) => b
        | _ => true
    | _ => true
  let next_ad_id :=
    match f.state_file with
    | .jobj kvs =>
        match jlookup kvs "next_ad_id" with
        | some (.jint n) => n.toNat
        | _ => next_ad_id1
    | _ => next_ad_id1
  let next_subscription_id :=
    match f.state_file with
    | .jobj kvs =>
        match jlookup kvs "next_subscription_id" with
        | some (.jint n) => n.toNat
        | _ => next_sub_id1
    | _ => next_sub_id1
  { users := users, ads := ads, favorites := favorites,
    subscriptions := subscriptions, bot_open := bot_open,
    next_ad_id := next_ad_id, next_subscription_id := next_subscription_id,
    price_offers := price_offers }

/-- Model of `Database._seed_sample_ads`: three demo listings inserted with fresh
ids when the ad collection is empty. -/
def seed_sample_ads (s : DB) (now : Nat) : DB :=
  let a1 := s.next_ad_id
  let ad1 : Ad :=
    { ad_id := a1, title := .str "Toyota Camry 2.5 AT", model := .str "Camry",
      year := .int 2019, price := .int 17500000,
      description := .str "Официальный дилерский автомобиль. Один владелец, полный комплект ключей, сервисная история. Комплектация Luxe: камера заднего вида, подогрев сидений, бесключевой доступ.",
      photos := ["AQADnuQxG_9z0Ul-", "AQADoOQxG_9z0Ul-", "AQADOeQxG4co0Ul-"],
      inspection_photos := [],
      thickness_photos := ["AQADO-QxG4co0Ul9", "AQADOuQxG4co0Ul9"],
      added_date := now, auction_mode := "off" }
  let ad2 : Ad :=
    { ad_id := a1 + 1, title := .str "Hyundai Tucson 1.6 Turbo", model := .str "Tucson",
      year := .int 2020, price := .int 15800000,
      description := .str "Полноприводный кроссовер. Турбированный двигатель, автоматическая коробка, кожаный салон, панорамная крыша. Пройдена комплексная диагностика.",
      photos := [], inspection_photos := [], thickness_photos := [],
      added_date := now, auction_mode := "off" }
  let ad3 : Ad :=
    { ad_id := a1 + 2, title := .str "Kia Rio X-Line", model := .str "Rio",
      year := .int 2021, price := .int 9200000,
      description := .str "Хэтчбек в отличном состоянии. Комплектация Comfort: мультимедиа с CarPlay/Android Auto, круиз-контроль, камера заднего вида. Проведена химчистка салона.",
      photos := [], inspection_photos := [], thickness_photos := [],
      added_date := now, auction_mode := "off" }
  { s with next_ad_id := a1 + 3,
           ads := aset (aset (aset s.ads a1 ad1) (a1 + 1) ad2) (a1 + 2) ad3 }

/-- Model of `Database.__init__` on existing data files: `_load_data`, then seed the
sample ads whenever no ads were loaded. -/
def restart (f : Files) (now : Nat) : DB :=
  let s := load f
  if s.ads.isEmpty then seed_sample_ads s now else s

/-- Well-formedness a `Database` state always has: dict keys are unique,
and no stored scalar holds a `datetime` where the JSON dump would reject it
(or a raw string where a timestamp is expected). -/
def wfUser (u : User) : Bool :=
  !u.username.isTime && !u.status.isTime && !u.name.isTime && !u.phone.isTime &&
  !u.city.isTime && !u.cheque_file_id.isTime && !u.created_at.isStr && !u.last_active.isStr

def wfAd (ad : Ad) : Bool :=
  !ad.title.isTime && !ad.model.isTime && !ad.year.isTime &&
  !ad.price.isTime && !ad.description.isTime

def wfSub (sub : Sub) : Bool :=
  !sub.model.isTime && !sub.price_min.isTime && !sub.price_max.isTime &&
  !sub.year_min.isTime && !sub.year_max.isTime

def wfDB (s : DB) : Bool :=
  decide ((akeys s.users).Nodup) && decide ((akeys s.ads).Nodup) &&
  decide ((akeys s.favorites).Nodup) && decide ((akeys s.subscriptions).Nodup) &&
  decide ((akeys s.price_offers).Nodup) &&
  s.users.all (fun p => wfUser p.2) && s.ads.all (fun p => wfAd p.2) &&
  s.subscriptions.all (fun p => p.2.all wfSub)

/-- C8 (counterexample): the empty-ads state `dbC8` does not survive a
restart: `__init__` finds no ads after `_load_data` and seeds the three
sample listings, so the reloaded state differs from the saved one. -/
def dbC8 : DB :=
  { users := [], ads := [], favorites := [], subscriptions := [],
    bot_open := false, next_ad_id := 7, next_subscription_id := 3,
    price_offers := [] }

/-- A two-ad state with strictly increasing creation times 5 and 9. -/
def dbC5w : DB := DB.init

/-! ## Theorems -/

@[simp] theorem aget_nil {α : Type} (k : Nat) : aget ([] : List (Nat × α)) k = none := rfl

theorem aget_aset_self {α : Type} (m : List (Nat × α)) (k : Nat) (v : α) :
    aget (aset m k v) k = some v := by
  induction m with
  | nil => simp [aset, aget]
  | cons p rest ih =>
    obtain ⟨k', v'⟩ := p
    by_cases h : k' = k
    · simp [aset, h, aget]
    · simp [aset, h, aget, ih]

theorem aget_aset_ne {α : Type} (m : List (Nat × α)) (k j : Nat) (v : α) (h : k ≠ j) :
    aget (aset m k v) j = aget m j := by
  induction m with
  | nil => simp [aset, aget, h]
  | cons p rest ih =>
    obtain ⟨k', v'⟩ := p
    by_cases hk : k' = k
    · subst hk
      simp [aset, aget, h]
    · simp [aset, hk, aget, ih]

theorem aset_aset {α : Type} (m : List (Nat × α)) (k : Nat) (v w : α) :
    aset (aset m k v) k w = aset m k w := by
  induction m with
  | nil => simp [aset]
  | cons p rest ih =>
    obtain ⟨k', v'⟩ := p
    by_cases h : k' = k
    · simp [aset, h]
    · simp [aset, h, ih]

theorem aset_fresh {α : Type} (m : List (Nat × α)) (k : Nat) (v : α)
    (h : k ∉ akeys m) : aset m k v = m ++ [(k, v)] := by
  induction m with
  | nil => simp [aset]
  | cons p rest ih =>
    obtain ⟨k', v'⟩ := p
    simp only [akeys, List.map_cons, List.mem_cons] at h
    push_neg at h
    simp [aset, Ne.symm h.1, ih (by simpa [akeys] using h.2)]

theorem mem_aset {α : Type} (m : List (Nat × α)) (k : Nat) (v : α) (p : Nat × α)
    (h : p ∈ aset m k v) : p ∈ m ∨ p = (k, v) := by
  induction m with
  | nil => simpa [aset] using h
  | cons q rest ih =>
    obtain ⟨k', v'⟩ := q
    by_cases hk : k' = k
    · simp only [aset, if_pos hk, List.mem_cons] at h
      rcases h with h1 | h1
      · exact Or.inr h1
      · exact Or.inl (List.mem_cons_of_mem _ h1)
    · simp only [aset, if_neg hk, List.mem_cons] at h
      rcases h with h1 | h1
      · exact Or.inl (by simp [h1])
      · rcases ih h1 with h2 | h2
        · exact Or.inl (List.mem_cons_of_mem _ h2)
        · exact Or.inr h2

theorem aget_eq_none_of_not_mem {α : Type} (m : List (Nat × α)) (k : Nat)
    (h : k ∉ akeys m) : aget m k = none := by
  induction m with
  | nil => rfl
  | cons p rest ih =>
    obtain ⟨k', v'⟩ := p
    simp only [akeys, List.map_cons, List.mem_cons] at h
    push_neg at h
    simp [aget, Ne.symm h.1, ih (by simpa [akeys] using h.2)]

theorem aget_adel_self {α : Type} (m : List (Nat × α)) (k : Nat)
    (hnd : (akeys m).Nodup) : aget (adel m k) k = none := by
  induction m with
  | nil => simp [adel]
  | cons p rest ih =>
    obtain ⟨k', v'⟩ := p
    simp only [akeys, List.map_cons, List.nodup_cons] at hnd
    by_cases h : k' = k
    · subst h
      simp only [adel, if_pos rfl]
      exact aget_eq_none_of_not_mem rest k' hnd.1
    · simp [adel, h, aget, ih hnd.2]

theorem aget_adel_ne {α : Type} (m : List (Nat × α)) (k j : Nat) (h : j ≠ k) :
    aget (adel m k) j = aget m j := by
  induction m with
  | nil => simp [adel]
  | cons p rest ih =>
    obtain ⟨k', v'⟩ := p
    by_cases hk : k' = k
    · simp [adel, hk, aget, Ne.symm h]
    · simp [adel, hk, aget, ih]

theorem aget_isSome_aset {α : Type} (m : List (Nat × α)) (k j : Nat) (v : α)
    (h : (aget m j).isSome) : (aget (aset m k v) j).isSome := by
  by_cases hk : k = j
  · subst hk; simp [aget_aset_self]
  · rw [aget_aset_ne m k j v hk]; exact h

theorem aget_map_val {α β : Type} (m : List (Nat × α)) (f : α → β) (k : Nat) :
    aget (m.map (fun p => (p.1, f p.2))) k = (aget m k).map f := by
  induction m with
  | nil => simp [aget]
  | cons p rest ih =>
    obtain ⟨k', v'⟩ := p
    by_cases h : k' = k
    · simp [aget, h]
    · simp [aget, h, ih]

/-- C1 (counterexample): the claim says `setAuctionMode` accepts exactly the
modes `off`, `ascending`, `descending`.  On a state where ad 1 exists, the
code rejects `"ascending"` with InvalidArgument, and accepts `"up"` — a
mode outside the claimed set — updating the ad. -/
theorem set_auction_mode_claimed_modes_false :
    set_auction_mode dbC1 1 "ascending" = .error .invalidArgument ∧
    set_auction_mode dbC1 1 "up" =
      .ok { dbC1 with ads := [(1, { demoAd with auction_mode := "up" })] } := by
  constructor
  · rfl
  · rfl

/-- C1 (amended): `set_auction_mode(adId, mode)` fails with NotFound when no
ad with `adId` exists, fails with InvalidArgument when `mode` is not one of
`off`, `up`, `down` (the code's names for off/ascending/descending), and
otherwise sets exactly the ad's `auction_mode` to the given mode, leaving
every other ad field, every other ad, and all other state unchanged. -/
theorem set_auction_mode_contract (s : DB) (ad_id : Nat) (mode : String) :
    (aget s.ads ad_id = none → set_auction_mode s ad_id mode = .error .notFound) ∧
    (∀ ad, aget s.ads ad_id = some ad → ¬(mode = "off" ∨ mode = "up" ∨ mode = "down") →
      set_auction_mode s ad_id mode = .error .invalidArgument) ∧
    (∀ ad, aget s.ads ad_id = some ad → (mode = "off" ∨ mode = "up" ∨ mode = "down") →
      ∃ s', set_auction_mode s ad_id mode = .ok s' ∧
        aget s'.ads ad_id = some { ad with auction_mode := mode } ∧
        (∀ j, j ≠ ad_id → aget s'.ads j = aget s.ads j) ∧
        s'.users = s.users ∧ s'.favorites = s.favorites ∧
        s'.subscriptions = s.subscriptions ∧ s'.bot_open = s.bot_open ∧
        s'.next_ad_id = s.next_ad_id ∧
        s'.next_subscription_id = s.next_subscription_id ∧
        s'.price_offers = s.price_offers) := by
  refine ⟨fun h => ?_, fun ad had hmode => ?_, fun ad had hmode => ?_⟩
  · simp [set_auction_mode, h]
  · simp [set_auction_mode, had, hmode]
  · refine ⟨{ s with ads := aset s.ads ad_id { ad with auction_mode := mode } },
      ?_, ?_, ?_, rfl, rfl, rfl, rfl, rfl, rfl, rfl⟩
    · simp [set_auction_mode, had, hmode]
    · exact aget_aset_self _ _ _
    · intro j hj
      exact aget_aset_ne _ _ _ _ (fun hh => hj hh.symm)

/-- C1 witness: instantiating the amended contract on `dbC1`. -/
theorem set_auction_mode_contract_witness :
    set_auction_mode dbC1 2 "down" = .error .notFound ∧
    set_auction_mode dbC1 1 "sideways" = .error .invalidArgument ∧
    ∃ s', set_auction_mode dbC1 1 "down" = .ok s' ∧
      aget s'.ads 1 = some { demoAd with auction_mode := "down" } := by
  refine ⟨(set_auction_mode_contract dbC1 2 "down").1 rfl,
          (set_auction_mode_contract dbC1 1 "sideways").2.1 demoAd rfl (by decide), ?_⟩
  obtain ⟨s', h1, h2, -⟩ :=
    (set_auction_mode_contract dbC1 1 "down").2.2 demoAd rfl (by decide)
  exact ⟨s', h1, h2⟩

theorem mem_of_aget {α : Type} (m : List (Nat × α)) (k : Nat) (v : α)
    (h : aget m k = some v) : (k, v) ∈ m := by
  induction m with
  | nil => simp [aget] at h
  | cons p rest ih =>
    obtain ⟨k', v'⟩ := p
    by_cases hk : k' = k
    · subst hk
      have h' : v' = v := by simpa [aget] using h
      subst h'
      exact List.mem_cons_self _ _
    · simp only [aget, if_neg hk] at h
      exact List.mem_cons_of_mem _ (ih h)

/-- After deleting an ad that was present, no favorites list still holds its
id (the `discard` loop of `delete_ad`). -/
theorem delete_ad_not_in_favs (s : DB) (a : Nat) (hs : (aget s.ads a).isSome = true) :
    ∀ u l, aget (delete_ad s a).favorites u = some l → a ∉ l := by
  intro u l hl
  simp only [delete_ad, if_pos hs] at hl
  rw [aget_map_val] at hl
  match hget : aget s.favorites u with
  | none => rw [hget] at hl; simp at hl
  | some l0 =>
    intro hmem
    rw [hget] at hl
    simp only [Option.map_some'] at hl
    rw [← Option.some.inj hl] at hmem
    have := List.of_mem_filter hmem
    simp at this

/-- C2: for every existing ad id `a`, after `delete_ad s a` the ad is absent
from the ad collection and from every user's favorites set; in particular
`is_favorite` answers `false` for it afterwards.  (The `Nodup` hypothesis
says the ad map has no duplicate keys, which holds of every Python dict.) -/
theorem delete_ad_cascades (s : DB) (a : Nat) (ad : Ad)
    (hnd : (akeys s.ads).Nodup) (h : aget s.ads a = some ad) :
    aget (delete_ad s a).ads a = none ∧
    (∀ u l, aget (delete_ad s a).favorites u = some l → a ∉ l) ∧
    (∀ u, (is_favorite (delete_ad s a) u a).1 = false) := by
  have hs : (aget s.ads a).isSome := by simp [h]
  have hfav := delete_ad_not_in_favs s a hs
  refine ⟨?_, hfav, ?_⟩
  · simp only [delete_ad, if_pos hs]
    exact aget_adel_self _ _ hnd
  · intro u
    simp only [is_favorite, dget]
    match hget : aget (delete_ad s a).favorites u with
    | none => simp
    | some l =>
      simp only
      have : a ∉ l := hfav u l hget
      simpa using this

/-- C2 witness: user 7 has ad 1 favorited; after deleting ad 1 it is gone
from the ads and `is_favorite 7 1` is `false`. -/
theorem delete_ad_cascades_witness :
    aget (delete_ad dbC2 1).ads 1 = none ∧
    (is_favorite (delete_ad dbC2 1) 7 1).1 = false :=
  ⟨(delete_ad_cascades dbC2 1 demoAd (by decide) rfl).1,
   (delete_ad_cascades dbC2 1 demoAd (by decide) rfl).2.2 7⟩

/-- C10: for an ad id absent from the collection, `delete_ad` raises no
error, leaves the entire state unchanged, and never reaches its
`_save_data()` call. -/
theorem delete_ad_absent_noop (s : DB) (ad_id : Nat) (h : aget s.ads ad_id = none) :
    delete_ad s ad_id = s ∧ delete_ad_saved s ad_id = false := by
  constructor
  · simp [delete_ad, h]
  · simp [delete_ad_saved, h]

/-- C10 witness: deleting ad 5 from a state that does not contain it. -/
theorem delete_ad_absent_noop_witness :
    delete_ad dbC2 5 = dbC2 ∧ delete_ad_saved dbC2 5 = false :=
  delete_ad_absent_noop dbC2 5 rfl

theorem consumeFromList_eq_none (l : List Offer) (u : Nat) (p : Int) (k : String)
    (h : consumeFromList l u p k = none) :
    ∀ o ∈ l, offerMatch o u p k = false := by
  induction l with
  | nil => intro o ho; simp at ho
  | cons o0 rest ih =>
    intro o ho
    by_cases hm : offerMatch o0 u p k
    · simp [consumeFromList, hm] at h
    · simp only [consumeFromList, hm, Bool.false_eq_true, if_false] at h
      rcases List.mem_cons.mp ho with rfl | hmem
      · simpa using hm
      · match hrec : consumeFromList rest u p k with
        | some pr => rw [hrec] at h; simp at h
        | none => exact ih hrec o hmem

theorem consumeFromList_eq_some (l : List Offer) (u : Nat) (p : Int) (k : String)
    (o : Offer) (rest : List Offer)
    (h : consumeFromList l u p k = some (o, rest)) :
    offerMatch o u p k = true ∧
    ∃ pre post, l = pre ++ o :: post ∧ rest = pre ++ post ∧
      ∀ x ∈ pre, offerMatch x u p k = false := by
  induction l generalizing o rest with
  | nil => simp [consumeFromList] at h
  | cons o0 tail ih =>
    by_cases hm : offerMatch o0 u p k
    · simp only [consumeFromList, hm, if_true, Option.some.injEq, Prod.mk.injEq] at h
      obtain ⟨rfl, rfl⟩ := h
      exact ⟨hm, [], tail, rfl, rfl, by intro x hx; simp at hx⟩
    · simp only [consumeFromList, hm, Bool.false_eq_true, if_false] at h
      match hrec : consumeFromList tail u p k with
      | none => rw [hrec] at h; simp at h
      | some (o', rest') =>
        rw [hrec] at h
        simp only [Option.some.injEq, Prod.mk.injEq] at h
        obtain ⟨rfl, rfl⟩ := h
        obtain ⟨hmo, pre, post, htail, hrest, hpre⟩ := ih _ _ hrec
        refine ⟨hmo, o0 :: pre, post, by simp [htail], by simp [hrest], ?_⟩
        intro x hx
        rcases List.mem_cons.mp hx with rfl | hx'
        · simpa using hm
        · exact hpre x hx'

/-- C4: `consume_price_offer` removes exactly the first offer in insertion
order of the ad's offer list whose `(user_id, price, kind)` fields all
match, returns it, and leaves every other part of the state unchanged; when
no offer matches it returns the distinct not-found signal (`none`) and the
whole state is unchanged. -/
theorem consume_price_offer_contract (s : DB) (a u : Nat) (p : Int) (k : String) :
    ((consume_price_offer s a u p k).1 = none →
      (consume_price_offer s a u p k).2 = s ∧
      ∀ o ∈ (aget s.price_offers a).getD [], offerMatch o u p k = false) ∧
    (∀ o, (consume_price_offer s a u p k).1 = some o →
      offerMatch o u p k = true ∧
      ∃ pre post,
        (aget s.price_offers a).getD [] = pre ++ o :: post ∧
        (aget (consume_price_offer s a u p k).2.price_offers a).getD [] = pre ++ post ∧
        (∀ x ∈ pre, offerMatch x u p k = false) ∧
        (∀ b, b ≠ a →
          aget (consume_price_offer s a u p k).2.price_offers b = aget s.price_offers b) ∧
        (consume_price_offer s a u p k).2.users = s.users ∧
        (consume_price_offer s a u p k).2.ads = s.ads ∧
        (consume_price_offer s a u p k).2.favorites = s.favorites ∧
        (consume_price_offer s a u p k).2.subscriptions = s.subscriptions ∧
        (consume_price_offer s a u p k).2.bot_open = s.bot_open ∧
        (consume_price_offer s a u p k).2.next_ad_id = s.next_ad_id ∧
        (consume_price_offer s a u p k).2.next_subscription_id = s.next_subscription_id) := by
  constructor
  · intro hnone
    match hc : consumeFromList ((aget s.price_offers a).getD []) u p k with
    | some pr =>
        exfalso
        simp [consume_price_offer, hc] at hnone
    | none =>
        refine ⟨by simp [consume_price_offer, hc], consumeFromList_eq_none _ _ _ _ hc⟩
  · intro o hsome
    match hc : consumeFromList ((aget s.price_offers a).getD []) u p k with
    | none =>
        exfalso
        simp [consume_price_offer, hc] at hsome
    | some (o', rest) =>
        have ho : o' = o := by
          have := hsome
          simp only [consume_price_offer, hc, Option.some.injEq] at this
          exact this
        subst ho
        obtain ⟨hmo, pre, post, hl, hrest, hpre⟩ :=
          consumeFromList_eq_some _ _ _ _ _ _ hc
        refine ⟨hmo, pre, post, hl, ?_, hpre, ?_, ?_, ?_, ?_, ?_, ?_, ?_, ?_⟩
        · simp [consume_price_offer, hc, aget_aset_self, hrest]
        · intro b hb
          simp only [consume_price_offer, hc]
          exact aget_aset_ne _ _ _ _ (fun hh => hb hh.symm)
        all_goals simp [consume_price_offer, hc]

/-- C4 witness: with two identical offers `(7, 100, "buy")` on ad 1, each
of the first two calls removes exactly one and returns it, and the third
call reports not-found and leaves the state unchanged. -/
theorem consume_price_offer_contract_witness :
    (consume_price_offer dbC4 1 7 100 "buy").1 = some demoOffer ∧
    (aget dbC4a.price_offers 1).getD [] = [demoOffer] ∧
    (consume_price_offer dbC4a 1 7 100 "buy").1 = some demoOffer ∧
    (aget dbC4b.price_offers 1).getD [] = [] ∧
    (consume_price_offer dbC4b 1 7 100 "buy").1 = none ∧
    (consume_price_offer dbC4b 1 7 100 "buy").2 = dbC4b :=
  ⟨rfl, rfl, rfl, rfl, rfl,
   ((consume_price_offer_contract dbC4b 1 7 100 "buy").1 rfl).1⟩

theorem pyOr_truthy (x d : PyVal) (h : x.truthy = true) : pyOr x d = x := by
  simp [pyOr, h]

theorem pyOr_idem_time (x : PyVal) (t : Nat) (y : PyVal) :
    pyOr (pyOr x (.time t)) y = pyOr x (.time t) := by
  by_cases h : x.truthy
  · simp [pyOr, h]
  · have h1 : pyOr x (.time t) = .time t := by simp [pyOr, h]
    rw [h1]
    simp [pyOr, PyVal.truthy]

/-- C6: `add_user` creates a fresh record stamping both timestamps to `now`
when the user is absent; when the user exists with genuine timestamps it
rewrites only `username` (display name) and `status`, preserving
`created_at`, `last_active` and every other field; and a repeated call with
the same arguments leaves exactly the state of the first call. -/
theorem add_user_contract (s : DB) (id : Nat) (un st : PyVal) (t1 t2 : Nat) :
    (aget s.users id = none →
      ∃ u', aget (add_user s id un st t1).users id = some u' ∧
        u'.username = un ∧ u'.status = st ∧
        u'.created_at = .time t1 ∧ u'.last_active = .time t1 ∧
        u'.name = .null ∧ u'.phone = .null ∧ u'.city = .null ∧
        u'.cheque_file_id = .null) ∧
    (∀ u, aget s.users id = some u →
      u.created_at.isTime = true → u.last_active.isTime = true →
      ∃ u', aget (add_user s id un st t1).users id = some u' ∧
        u'.username = un ∧ u'.status = st ∧
        u'.created_at = u.created_at ∧ u'.last_active = u.last_active ∧
        u'.name = u.name ∧ u'.phone = u.phone ∧ u'.city = u.city ∧
        u'.cheque_file_id = u.cheque_file_id ∧ u'.user_id = u.user_id ∧
        (∀ j, j ≠ id → aget (add_user s id un st t1).users j = aget s.users j) ∧
        (add_user s id un st t1).ads = s.ads ∧
        (add_user s id un st t1).favorites = s.favorites ∧
        (add_user s id un st t1).subscriptions = s.subscriptions ∧
        (add_user s id un st t1).bot_open = s.bot_open ∧
        (add_user s id un st t1).next_ad_id = s.next_ad_id ∧
        (add_user s id un st t1).next_subscription_id = s.next_subscription_id ∧
        (add_user s id un st t1).price_offers = s.price_offers) ∧
    add_user (add_user s id un st t1) id un st t2 = add_user s id un st t1 := by
  have htime : ∀ (v : PyVal), v.isTime = true → v.truthy = true := by
    intro v hv
    cases v <;> simp_all [PyVal.isTime, PyVal.truthy]
  refine ⟨fun h => ?_, fun u hu hc hl => ?_, ?_⟩
  · refine ⟨mkDefaultUser id un st t1, ?_, rfl, rfl, rfl, rfl, rfl, rfl, rfl, rfl⟩
    simp [add_user, h, aget_aset_self]
  · have hset : aget (add_user s id un st t1).users id =
        some { u with username := un, status := st,
                      created_at := pyOr u.created_at (.time t1),
                      last_active := pyOr u.last_active (.time t1) } := by
      simp [add_user, hu, aget_aset_self]
    refine ⟨_, hset, rfl, rfl, ?_, ?_, rfl, rfl, rfl, rfl, rfl, ?_,
      by simp [add_user, hu], by simp [add_user, hu], by simp [add_user, hu],
      by simp [add_user, hu], by simp [add_user, hu], by simp [add_user, hu],
      by simp [add_user, hu]⟩
    · exact pyOr_truthy _ _ (htime _ hc)
    · exact pyOr_truthy _ _ (htime _ hl)
    · intro j hj
      simp only [add_user, hu]
      exact aget_aset_ne _ _ _ _ (fun hh => hj hh.symm)
  · match h : aget s.users id with
    | none =>
        simp [add_user, h, aget_aset_self, aset_aset, mkDefaultUser, pyOr, PyVal.truthy]
    | some u =>
        simp [add_user, h, aget_aset_self, aset_aset, pyOr_idem_time]

/-- C6 witness: updating existing user 7 keeps the stamps of time 3, and a
second identical call at a later time changes nothing. -/
theorem add_user_contract_witness :
    (∃ u', aget (add_user dbC6 7 (.str "bob") (.str "approved") 50).users 7 = some u' ∧
      u'.username = .str "bob" ∧ u'.status = .str "approved" ∧
      u'.created_at = .time 3 ∧ u'.last_active = .time 3 ∧
      u'.name = .null ∧ u'.phone = .null ∧ u'.city = .null ∧
      u'.cheque_file_id = .null ∧ u'.user_id = 7) ∧
    add_user (add_user dbC6 7 (.str "bob") (.str "approved") 50) 7
        (.str "bob") (.str "approved") 60 =
      add_user dbC6 7 (.str "bob") (.str "approved") 50 := by
  refine ⟨?_, (add_user_contract dbC6 7 (.str "bob") (.str "approved") 50 60).2.2⟩
  obtain ⟨u', h1, h2, h3, h4, h5, h6, h7, h8, h9, h10, -⟩ :=
    (add_user_contract dbC6 7 (.str "bob") (.str "approved") 50 60).2.1
      (mkDefaultUser 7 (.str "old") (.str "pending") 3) rfl rfl rfl
  exact ⟨u', h1, h2, h3, h4, h5, h6, h7, h8, h9, h10⟩

theorem apply_ad_field_keeps (ad : Ad) (k : String) (v : PyVal) :
    (apply_ad_field ad k v).ad_id = ad.ad_id ∧
    (apply_ad_field ad k v).photos = ad.photos ∧
    (apply_ad_field ad k v).inspection_photos = ad.inspection_photos ∧
    (apply_ad_field ad k v).thickness_photos = ad.thickness_photos ∧
    (apply_ad_field ad k v).added_date = ad.added_date ∧
    (apply_ad_field ad k v).auction_mode = ad.auction_mode := by
  unfold apply_ad_field
  split_ifs <;> exact ⟨rfl, rfl, rfl, rfl, rfl, rfl⟩

theorem applyFields_keeps (fields : List (String × PyVal)) (ad : Ad) :
    (applyFields ad fields).ad_id = ad.ad_id ∧
    (applyFields ad fields).photos = ad.photos ∧
    (applyFields ad fields).inspection_photos = ad.inspection_photos ∧
    (applyFields ad fields).thickness_photos = ad.thickness_photos ∧
    (applyFields ad fields).added_date = ad.added_date ∧
    (applyFields ad fields).auction_mode = ad.auction_mode := by
  induction fields generalizing ad with
  | nil => exact ⟨rfl, rfl, rfl, rfl, rfl, rfl⟩
  | cons kv rest ih =>
    have h1 := apply_ad_field_keeps ad kv.1 kv.2
    have h2 := ih (apply_ad_field ad kv.1 kv.2)
    simp only [applyFields, List.foldl_cons] at h2 ⊢
    exact ⟨h2.1.trans h1.1, h2.2.1.trans h1.2.1, h2.2.2.1.trans h1.2.2.1,
           h2.2.2.2.1.trans h1.2.2.2.1, h2.2.2.2.2.1.trans h1.2.2.2.2.1,
           h2.2.2.2.2.2.trans h1.2.2.2.2.2⟩

theorem apply_ad_field_title_of_ne (ad : Ad) (k : String) (v : PyVal) (h : k ≠ "title") :
    (apply_ad_field ad k v).title = ad.title := by
  unfold apply_ad_field
  split_ifs <;> first | rfl | exact absurd (by assumption) h

theorem apply_ad_field_model_of_ne (ad : Ad) (k : String) (v : PyVal) (h : k ≠ "model") :
    (apply_ad_field ad k v).model = ad.model := by
  unfold apply_ad_field
  split_ifs <;> rfl

theorem apply_ad_field_year_of_ne (ad : Ad) (k : String) (v : PyVal) (h : k ≠ "year") :
    (apply_ad_field ad k v).year = ad.year := by
  unfold apply_ad_field
  split_ifs <;> rfl

theorem apply_ad_field_price_of_ne (ad : Ad) (k : String) (v : PyVal) (h : k ≠ "price") :
    (apply_ad_field ad k v).price = ad.price := by
  unfold apply_ad_field
  split_ifs <;> rfl

theorem apply_ad_field_description_of_ne (ad : Ad) (k : String) (v : PyVal)
    (h : k ≠ "description") :
    (apply_ad_field ad k v).description = ad.description := by
  unfold apply_ad_field
  split_ifs <;> rfl

theorem applyFields_title (fields : List (String × PyVal)) (ad : Ad) :
    (applyFields ad fields).title = (lastVal fields "title").getD ad.title := by
  induction fields generalizing ad with
  | nil => rfl
  | cons kv rest ih =>
    simp only [applyFields, List.foldl_cons] at ih ⊢
    rw [ih]
    cases hlv : lastVal rest "title" with
    | some v => simp [lastVal, hlv]
    | none =>
      by_cases hk : kv.1 = "title"
      · simp [lastVal, hlv, hk, apply_ad_field]
      · simp [lastVal, hlv, hk, apply_ad_field_title_of_ne ad kv.1 kv.2 hk]

theorem applyFields_model (fields : List (String × PyVal)) (ad : Ad) :
    (applyFields ad fields).model = (lastVal fields "model").getD ad.model := by
  induction fields generalizing ad with
  | nil => rfl
  | cons kv rest ih =>
    simp only [applyFields, List.foldl_cons] at ih ⊢
    rw [ih]
    cases hlv : lastVal rest "model" with
    | some v => simp [lastVal, hlv]
    | none =>
      by_cases hk : kv.1 = "model"
      · simp [lastVal, hlv, hk, apply_ad_field]
      · simp [lastVal, hlv, hk, apply_ad_field_model_of_ne ad kv.1 kv.2 hk]

theorem applyFields_year (fields : List (String × PyVal)) (ad : Ad) :
    (applyFields ad fields).year = (lastVal fields "year").getD ad.year := by
  induction fields generalizing ad with
  | nil => rfl
  | cons kv rest ih =>
    simp only [applyFields, List.foldl_cons] at ih ⊢
    rw [ih]
    cases hlv : lastVal rest "year" with
    | some v => simp [lastVal, hlv]
    | none =>
      by_cases hk : kv.1 = "year"
      · simp [lastVal, hlv, hk, apply_ad_field]
      · simp [lastVal, hlv, hk, apply_ad_field_year_of_ne ad kv.1 kv.2 hk]

theorem applyFields_price (fields : List (String × PyVal)) (ad : Ad) :
    (applyFields ad fields).price = (lastVal fields "price").getD ad.price := by
  induction fields generalizing ad with
  | nil => rfl
  | cons kv rest ih =>
    simp only [applyFields, List.foldl_cons] at ih ⊢
    rw [ih]
    cases hlv : lastVal rest "price" with
    | some v => simp [lastVal, hlv]
    | none =>
      by_cases hk : kv.1 = "price"
      · simp [lastVal, hlv, hk, apply_ad_field]
      · simp [lastVal, hlv, hk, apply_ad_field_price_of_ne ad kv.1 kv.2 hk]

theorem applyFields_description (fields : List (String × PyVal)) (ad : Ad) :
    (applyFields ad fields).description =
      (lastVal fields "description").getD ad.description := by
  induction fields generalizing ad with
  | nil => rfl
  | cons kv rest ih =>
    simp only [applyFields, List.foldl_cons] at ih ⊢
    rw [ih]
    cases hlv : lastVal rest "description" with
    | some v => simp [lastVal, hlv]
    | none =>
      by_cases hk : kv.1 = "description"
      · simp [lastVal, hlv, hk, apply_ad_field]
      · simp [lastVal, hlv, hk, apply_ad_field_description_of_ne ad kv.1 kv.2 hk]

/-- C7: `update_ad(adId, partialFields)` fails with NotFound when the ad is
absent (the raise precedes any mutation); otherwise each of the allowed
names `title`, `model`, `year`, `price`, `description` receives the last
value supplied for it (or keeps its old value when not supplied), every
supplied name outside that set is silently ignored, and the ad's other
fields, all other ads, and the rest of the state are unchanged. -/
theorem update_ad_contract (s : DB) (ad_id : Nat) (fields : List (String × PyVal)) :
    (aget s.ads ad_id = none → update_ad s ad_id fields = .error .notFound) ∧
    (∀ ad, aget s.ads ad_id = some ad →
      ∃ s', update_ad s ad_id fields = .ok s' ∧
        ∃ ad', aget s'.ads ad_id = some ad' ∧
          ad'.title = (lastVal fields "title").getD ad.title ∧
          ad'.model = (lastVal fields "model").getD ad.model ∧
          ad'.year = (lastVal fields "year").getD ad.year ∧
          ad'.price = (lastVal fields "price").getD ad.price ∧
          ad'.description = (lastVal fields "description").getD ad.description ∧
          ad'.ad_id = ad.ad_id ∧ ad'.photos = ad.photos ∧
          ad'.inspection_photos = ad.inspection_photos ∧
          ad'.thickness_photos = ad.thickness_photos ∧
          ad'.added_date = ad.added_date ∧ ad'.auction_mode = ad.auction_mode ∧
          (∀ j, j ≠ ad_id → aget s'.ads j = aget s.ads j) ∧
          s'.users = s.users ∧ s'.favorites = s.favorites ∧
          s'.subscriptions = s.subscriptions ∧ s'.bot_open = s.bot_open ∧
          s'.next_ad_id = s.next_ad_id ∧
          s'.next_subscription_id = s.next_subscription_id ∧
          s'.price_offers = s.price_offers) := by
  constructor
  · intro h
    simp [update_ad, h]
  · intro ad had
    have hk := applyFields_keeps fields ad
    refine ⟨{ s with ads := aset s.ads ad_id (applyFields ad fields) },
      by simp [update_ad, had], applyFields ad fields, aget_aset_self _ _ _,
      applyFields_title fields ad, applyFields_model fields ad,
      applyFields_year fields ad, applyFields_price fields ad,
      applyFields_description fields ad,
      hk.1, hk.2.1, hk.2.2.1, hk.2.2.2.1, hk.2.2.2.2.1, hk.2.2.2.2.2,
      ?_, rfl, rfl, rfl, rfl, rfl, rfl, rfl⟩
    intro j hj
    exact aget_aset_ne _ _ _ _ (fun hh => hj hh.symm)

/-- C7 witness: on `dbC1`, updating ad 1 with a new title, a new price, and
a bogus field name fails on ad 2 with NotFound, and on ad 1 changes exactly
title and price. -/
theorem update_ad_contract_witness :
    update_ad dbC1 2 [("title", .str "New")] = .error .notFound ∧
    ∃ s', update_ad dbC1 1
        [("title", .str "New"), ("bogus", .int 5), ("price", .int 42)] = .ok s' ∧
      ∃ ad', aget s'.ads 1 = some ad' ∧
        ad'.title = .str "New" ∧ ad'.price = .int 42 ∧
        ad'.model = demoAd.model ∧ ad'.year = demoAd.year ∧
        ad'.description = demoAd.description ∧ ad'.photos = demoAd.photos ∧
        ad'.auction_mode = demoAd.auction_mode := by
  refine ⟨(update_ad_contract dbC1 2 [("title", .str "New")]).1 rfl, ?_⟩
  obtain ⟨s', h1, ad', h2, h3, h4, h5, h6, h7, h8, h9, h10, h11, h12, h13, -⟩ :=
    (update_ad_contract dbC1 1
      [("title", .str "New"), ("bogus", .int 5), ("price", .int 42)]).2 demoAd rfl
  exact ⟨s', h1, ad', h2, h3, h6, h4, h5, h7, h9, h13⟩

theorem mem_insertDesc (x y : Ad) (l : List Ad) :
    y ∈ insertDesc x l ↔ y = x ∨ y ∈ l := by
  induction l with
  | nil => simp [insertDesc]
  | cons b bs ih =>
    by_cases h : x.added_date < b.added_date
    · simp only [insertDesc, if_pos h, List.mem_cons, ih]
      tauto
    · simp only [insertDesc, if_neg h, List.mem_cons]

theorem mem_sortDesc (x : Ad) (l : List Ad) : x ∈ sortDesc l ↔ x ∈ l := by
  induction l with
  | nil => simp [sortDesc]
  | cons a as_ ih =>
    simp [sortDesc, mem_insertDesc, ih]

theorem pairwise_insertDesc (x : Ad) (l : List Ad)
    (h : l.Pairwise (fun a b => b.added_date ≤ a.added_date)) :
    (insertDesc x l).Pairwise (fun a b => b.added_date ≤ a.added_date) := by
  induction l with
  | nil => simp [insertDesc]
  | cons b bs ih =>
    rcases List.pairwise_cons.mp h with ⟨hb, hbs⟩
    by_cases hd : x.added_date < b.added_date
    · simp only [insertDesc, if_pos hd]
      refine List.pairwise_cons.mpr ⟨?_, ih hbs⟩
      intro y hy
      rcases (mem_insertDesc x y bs).mp hy with rfl | hy'
      · exact Nat.le_of_lt hd
      · exact hb y hy'
    · simp only [insertDesc, if_neg hd]
      refine List.pairwise_cons.mpr ⟨?_, h⟩
      intro y hy
      rcases List.mem_cons.mp hy with rfl | hy'
      · exact Nat.le_of_not_lt hd
      · exact le_trans (hb y hy') (Nat.le_of_not_lt hd)

theorem pairwise_sortDesc (l : List Ad) :
    (sortDesc l).Pairwise (fun a b => b.added_date ≤ a.added_date) := by
  induction l with
  | nil => simp [sortDesc]
  | cons a as_ ih => exact pairwise_insertDesc a _ ih

theorem filter_insertDesc (x : Ad) (l : List Ad) (t : Nat) :
    (insertDesc x l).filter (fun a => a.added_date == t) =
      if x.added_date = t then x :: l.filter (fun a => a.added_date == t)
      else l.filter (fun a => a.added_date == t) := by
  induction l with
  | nil =>
    by_cases h : x.added_date = t <;> simp [insertDesc, h]
  | cons b bs ih =>
    by_cases hd : x.added_date < b.added_date
    · simp only [insertDesc, if_pos hd]
      by_cases hx : x.added_date = t
      · have hb : ¬ (b.added_date = t) := by omega
        simp [List.filter_cons, hb, hx, ih]
      · by_cases hb : b.added_date = t <;> simp [List.filter_cons, hb, hx, ih]
    · simp only [insertDesc, if_neg hd]
      by_cases hx : x.added_date = t <;> simp [List.filter_cons, hx]

theorem filter_sortDesc (l : List Ad) (t : Nat) :
    (sortDesc l).filter (fun a => a.added_date == t) =
      l.filter (fun a => a.added_date == t) := by
  induction l with
  | nil => simp [sortDesc]
  | cons a as_ ih =>
    simp only [sortDesc, filter_insertDesc, ih]
    by_cases h : a.added_date = t <;> simp [List.filter_cons, h]

theorem sorted_split_at (l : List Ad) (t : Nat)
    (h : l.Pairwise (fun a b => b.added_date ≤ a.added_date)) :
    l = l.filter (fun a => decide (t ≤ a.added_date)) ++
        l.filter (fun a => decide (a.added_date < t)) := by
  induction l with
  | nil => simp
  | cons x xs ih =>
    rcases List.pairwise_cons.mp h with ⟨hx, hxs⟩
    by_cases hge : t ≤ x.added_date
    · simp only [List.filter_cons, hge, decide_True]
      have : ¬ (x.added_date < t) := by omega
      simp only [this, decide_False]
      exact congrArg (x :: ·) (ih hxs)
    · have hlt : x.added_date < t := by omega
      have h1 : xs.filter (fun a => decide (t ≤ a.added_date)) = [] := by
        rw [List.filter_eq_nil_iff]
        intro a ha
        have := hx a ha
        simp only [decide_eq_true_eq]
        omega
      have h2 : xs.filter (fun a => decide (a.added_date < t)) = xs := by
        rw [List.filter_eq_self]
        intro a ha
        have := hx a ha
        simp only [decide_eq_true_eq]
        omega
      simp [List.filter_cons, hge, hlt, h1, h2]

theorem get_ads_equal_times_keep_insertion_order :
    (get_ads dbC5).map (fun a => a.ad_id) = [1, 2] ∧
    ¬ (get_ads dbC5).map (fun a => a.ad_id) = [2, 1] := by
  constructor
  · rfl
  · decide

/-- C5 (amended): `get_ads` always returns the ads sorted by `added_date`
descending with ties keeping insertion order (the stable-sort behaviour of
`sorted(..., reverse=True)`), and creating ad A and then ad B yields B
strictly before A in `get_ads` whenever B's creation instant is strictly
later than A's (for equal instants A keeps its earlier position).  The
`hwf` hypothesis states the counter invariant every reachable state has:
existing ad keys are below `next_ad_id`. -/
theorem get_ads_sorted_contract (s : DB)
    (tiA prA deA moA yeA tiB prB deB moB yeB : PyVal)
    (phA ipA thA phB ipB thB : Option (List String))
    (tA tB : Nat)
    (hwf : ∀ k ∈ akeys s.ads, k < s.next_ad_id)
    (hlt : tA < tB) :
    (get_ads s).Pairwise (fun a b => b.added_date ≤ a.added_date) ∧
    (∀ t, (get_ads s).filter (fun a => a.added_date == t) =
        (avals s.ads).filter (fun a => a.added_date == t)) ∧
    (∀ s1 s2 idA idB,
      (idA, s1) = add_ad s tiA prA deA phA ipA thA moA yeA tA →
      (idB, s2) = add_ad s1 tiB prB deB phB ipB thB moB yeB tB →
      ∃ adA adB l₁ l₂,
        aget s2.ads idA = some adA ∧ aget s2.ads idB = some adB ∧
        adA.added_date = tA ∧ adB.added_date = tB ∧
        get_ads s2 = l₁ ++ l₂ ∧ adB ∈ l₁ ∧ adA ∈ l₂ ∧ adA ∉ l₁ ∧ adB ∉ l₂) := by
  refine ⟨pairwise_sortDesc _, fun t => filter_sortDesc _ t, ?_⟩
  intro s1 s2 idA idB hA hB
  obtain ⟨hidA, hs1⟩ : idA = s.next_ad_id ∧
      s1 = (add_ad s tiA prA deA phA ipA thA moA yeA tA).2 := by
    constructor
    · exact congrArg Prod.fst hA
    · exact congrArg Prod.snd hA
  obtain ⟨hidB, hs2⟩ : idB = s1.next_ad_id ∧
      s2 = (add_ad s1 tiB prB deB phB ipB thB moB yeB tB).2 := by
    constructor
    · exact congrArg Prod.fst hB
    · exact congrArg Prod.snd hB
  subst hidA hs1 hidB hs2
  set n := s.next_ad_id with hn
  set adA : Ad :=
    { ad_id := n, title := tiA, model := moA, year := yeA, price := prA,
      description := deA, photos := phA.getD [], inspection_photos := ipA.getD [],
      thickness_photos := thA.getD [], added_date := tA, auction_mode := "off" }
    with hadA
  set adB : Ad :=
    { ad_id := n + 1, title := tiB, model := moB, year := yeB, price := prB,
      description := deB, photos := phB.getD [], inspection_photos := ipB.getD [],
      thickness_photos := thB.getD [], added_date := tB, auction_mode := "off" }
    with hadB
  have hads1 : (add_ad s tiA prA deA phA ipA thA moA yeA tA).2.ads = aset s.ads n adA := rfl
  have hads2 :
      (add_ad (add_ad s tiA prA deA phA ipA thA moA yeA tA).2
        tiB prB deB phB ipB thB moB yeB tB).2.ads =
      aset (aset s.ads n adA) (n + 1) adB := rfl
  have hfreshA : n ∉ akeys s.ads := fun hmem => Nat.lt_irrefl n (hwf n hmem)
  have hfreshB : n + 1 ∉ akeys (aset s.ads n adA) := by
    intro hmem
    rw [aset_fresh s.ads n adA hfreshA] at hmem
    simp only [akeys, List.map_append, List.mem_append] at hmem
    rcases hmem with hmem | hmem
    · exact Nat.lt_irrefl n (Nat.lt_trans (Nat.lt_succ_self n) (hwf (n + 1) hmem))
    · simp at hmem
  have hgetA : aget (aset (aset s.ads n adA) (n + 1) adB) n = some adA := by
    rw [aget_aset_ne _ _ _ _ (by omega)]
    exact aget_aset_self _ _ _
  have hgetB : aget (aset (aset s.ads n adA) (n + 1) adB) (n + 1) = some adB :=
    aget_aset_self _ _ _
  have hvals : avals (aset (aset s.ads n adA) (n + 1) adB) = avals s.ads ++ [adA, adB] := by
    rw [aset_fresh _ _ _ hfreshB, aset_fresh _ _ _ hfreshA]
    simp [avals]
  set l := sortDesc (avals (aset (aset s.ads n adA) (n + 1) adB)) with hl
  have hsorted : List.Pairwise (fun a b => b.added_date ≤ a.added_date) l := by
    rw [hl]; exact pairwise_sortDesc _
  have hsplit := sorted_split_at l tB hsorted
  have hmemB : adB ∈ l := by
    rw [hl, mem_sortDesc, hvals]
    simp
  have hmemA : adA ∈ l := by
    rw [hl, mem_sortDesc, hvals]
    simp
  refine ⟨adA, adB, l.filter (fun a => decide (tB ≤ a.added_date)),
    l.filter (fun a => decide (a.added_date < tB)),
    hgetA, hgetB, rfl, rfl, hsplit, ?_, ?_, ?_, ?_⟩
  · rw [List.mem_filter]
    exact ⟨hmemB, by simp [hadB]⟩
  · rw [List.mem_filter]
    refine ⟨hmemA, by simp [hadA]; omega⟩
  · intro hmem
    rw [List.mem_filter] at hmem
    have := hmem.2
    simp [hadA] at this
    omega
  · intro hmem
    rw [List.mem_filter] at hmem
    have := hmem.2
    simp [hadB] at this

theorem invB_iff (s : DB) : InvB s = true ↔
    ∀ p ∈ s.favorites, ∀ a ∈ p.2, (aget s.ads a).isSome = true := by
  simp [InvB, List.all_eq_true]

theorem invB_of_parts (s s' : DB) (hf : s'.favorites = s.favorites)
    (hads : ∀ a, (aget s.ads a).isSome = true → (aget s'.ads a).isSome = true)
    (h : InvB s = true) : InvB s' = true := by
  rw [invB_iff] at h ⊢
  intro p hp a ha
  exact hads a (h p (hf ▸ hp) a ha)

theorem invB_same (s s' : DB) (hf : s'.favorites = s.favorites)
    (ha : s'.ads = s.ads) (h : InvB s = true) : InvB s' = true :=
  invB_of_parts s s' hf (fun a hsa => by rw [ha]; exact hsa) h

theorem mem_dget_snd (m : List (Nat × List Nat)) (u : Nat) (p : Nat × List Nat)
    (hp : p ∈ (dget m u).2) : p ∈ m ∨ p = (u, []) := by
  cases hg : aget m u with
  | some l => simp only [dget, hg] at hp; exact Or.inl hp
  | none => simp only [dget, hg] at hp; exact mem_aset _ _ _ _ hp

theorem invB_fav_elem (s : DB) (u x : Nat) (h : InvB s = true)
    (hx : x ∈ (dget s.favorites u).1) : (aget s.ads x).isSome = true := by
  cases hg : aget s.favorites u with
  | some l =>
    simp only [dget, hg] at hx
    exact (invB_iff s).mp h _ (mem_of_aget _ _ _ hg) x hx
  | none => simp [dget, hg] at hx

theorem invB_dget (s : DB) (u : Nat) (h : InvB s = true) :
    InvB { s with favorites := (dget s.favorites u).2 } = true := by
  rw [invB_iff] at h ⊢
  intro p hp a ha
  rcases mem_dget_snd s.favorites u p hp with hmem | rfl
  · exact h p hmem a ha
  · simp at ha

theorem append_ad_media_ok (s : DB) (ad_id : Nat) (f m : String) (s' : DB)
    (h : append_ad_media s ad_id f m = .ok s') :
    s'.favorites = s.favorites ∧
    (∀ a, (aget s.ads a).isSome = true → (aget s'.ads a).isSome = true) := by
  unfold append_ad_media at h
  cases hg : aget s.ads ad_id with
  | none => rw [hg] at h; simp at h
  | some ad =>
    rw [hg] at h
    split_ifs at h <;>
      · injection h with h'
        subst h'
        exact ⟨rfl, fun a ha => aget_isSome_aset _ _ _ _ ha⟩

theorem update_ad_ok (s : DB) (ad_id : Nat) (fields : List (String × PyVal)) (s' : DB)
    (h : update_ad s ad_id fields = .ok s') :
    s'.favorites = s.favorites ∧
    (∀ a, (aget s.ads a).isSome = true → (aget s'.ads a).isSome = true) := by
  unfold update_ad at h
  cases hg : aget s.ads ad_id with
  | none => rw [hg] at h; simp at h
  | some ad =>
    rw [hg] at h
    injection h with h'
    subst h'
    exact ⟨rfl, fun a ha => aget_isSome_aset _ _ _ _ ha⟩

theorem set_auction_mode_ok (s : DB) (ad_id : Nat) (mode : String) (s' : DB)
    (h : set_auction_mode s ad_id mode = .ok s') :
    s'.favorites = s.favorites ∧
    (∀ a, (aget s.ads a).isSome = true → (aget s'.ads a).isSome = true) := by
  unfold set_auction_mode at h
  cases hg : aget s.ads ad_id with
  | none => rw [hg] at h; simp at h
  | some ad =>
    rw [hg] at h
    split_ifs at h
    injection h with h'
    subst h'
    exact ⟨rfl, fun a ha => aget_isSome_aset _ _ _ _ ha⟩

/-- C3: the referential-integrity invariant — every favorited ad id refers
to an existing ad — is preserved by every mutating operation; adding a
favorite for a nonexistent ad leaves the state (hence `get_favorite_ads`)
unchanged; and `delete_ad` prunes the deleted id from all favorites. -/
theorem favorites_reference_integrity :
    (∀ s s', Step s s' → InvB s = true → InvB s' = true) ∧
    (∀ s u a, aget s.ads a = none →
      add_to_favorites s u a = s ∧
      (get_favorite_ads (add_to_favorites s u a) u).1 = (get_favorite_ads s u).1) ∧
    (∀ s a u l, InvB s = true → aget (delete_ad s a).favorites u = some l → a ∉ l) := by
  refine ⟨?_, ?_, ?_⟩
  · intro s s' hstep hinv
    cases hstep with
    | s_add_user id un st now =>
      exact invB_same _ _ (by cases hg : aget s.users id <;> simp [add_user, hg])
        (by cases hg : aget s.users id <;> simp [add_user, hg]) hinv
    | s_update_user_contact id na ph ci now => exact invB_same _ _ rfl rfl hinv
    | s_update_user_status id st now => exact invB_same _ _ rfl rfl hinv
    | s_update_last_active id now => exact invB_same _ _ rfl rfl hinv
    | s_update_username id un now =>
      refine invB_same _ _ ?_ ?_ hinv <;>
        · by_cases h1 : un = PyVal.null
          · simp [update_username, h1]
          · cases hg : aget s.users id with
            | none => simp [update_username, h1, hg]
            | some u0 =>
              by_cases h2 : u0.username ≠ un <;> simp [update_username, h1, hg, h2]
    | s_set_bot_state b => exact invB_same _ _ rfl rfl hinv
    | s_add_ad ti pr de mo ye ph ip th now =>
      exact invB_of_parts s _ rfl (fun a ha => aget_isSome_aset _ _ _ _ ha) hinv
    | s_append_ad_media ad_id f m s' h =>
      obtain ⟨hf, hads⟩ := append_ad_media_ok s ad_id f m s' h
      exact invB_of_parts _ _ hf hads hinv
    | s_update_ad ad_id fields s' h =>
      obtain ⟨hf, hads⟩ := update_ad_ok s ad_id fields s' h
      exact invB_of_parts _ _ hf hads hinv
    | s_set_auction_mode ad_id mode s' h =>
      obtain ⟨hf, hads⟩ := set_auction_mode_ok s ad_id mode s' h
      exact invB_of_parts _ _ hf hads hinv
    | s_add_price_offer a u p k now => exact invB_same _ _ rfl rfl hinv
    | s_consume_price_offer a u p k =>
      refine invB_same _ _ ?_ ?_ hinv <;>
        · unfold consume_price_offer
          cases hc : consumeFromList ((aget s.price_offers a).getD []) u p k with
          | none => rfl
          | some pr => obtain ⟨o, rest⟩ := pr; rfl
    | s_delete_ad a =>
      by_cases hs : (aget s.ads a).isSome
      · rw [invB_iff] at hinv ⊢
        intro p hp x hx
        simp only [delete_ad, if_pos hs] at hp ⊢
        obtain ⟨q, hq, rfl⟩ := List.mem_map.mp hp
        have hx' := List.mem_filter.mp hx
        have hxs := hinv q hq x hx'.1
        have hne : x ≠ a := by simpa using hx'.2
        rw [aget_adel_ne _ _ _ hne]
        exact hxs
      · simpa [delete_ad, hs] using hinv
    | s_is_favorite u a => exact invB_dget s u hinv
    | s_add_to_favorites u a =>
      by_cases hs : (aget s.ads a).isSome
      · rw [invB_iff]
        intro p hp x hx
        simp only [add_to_favorites, if_pos hs] at hp ⊢
        rcases mem_aset _ _ _ _ hp with hmem | rfl
        · rcases mem_dget_snd s.favorites u p hmem with hmem2 | rfl
          · exact (invB_iff s).mp hinv p hmem2 x hx
          · simp at hx
        · by_cases hcon : ((dget s.favorites u).1).contains a
          · simp only [if_pos hcon] at hx
            exact invB_fav_elem s u x hinv hx
          · simp only [if_neg hcon] at hx
            rcases List.mem_append.mp hx with hx' | hx'
            · exact invB_fav_elem s u x hinv hx'
            · simp only [List.mem_singleton] at hx'
              subst hx'
              exact hs
      · simpa [add_to_favorites, hs] using hinv
    | s_remove_from_favorites u a =>
      by_cases hcon : ((dget s.favorites u).1).contains a
      · rw [invB_iff]
        intro p hp x hx
        simp only [remove_from_favorites, if_pos hcon] at hp ⊢
        rcases mem_aset _ _ _ _ hp with hmem | rfl
        · rcases mem_dget_snd s.favorites u p hmem with hmem2 | rfl
          · exact (invB_iff s).mp hinv p hmem2 x hx
          · simp at hx
        · have hx' := List.mem_filter.mp hx
          exact invB_fav_elem s u x hinv hx'.1
      · simp only [remove_from_favorites, if_neg hcon]
        exact invB_dget s u hinv
    | s_get_favorite_ads u => exact invB_dget s u hinv
    | s_add_subscription u mo pmin pmax ymin ymax => exact invB_same _ _ rfl rfl hinv
    | s_delete_subscription rowid => exact invB_same _ _ rfl rfl hinv
    | s_update_user_cheque u c => exact invB_same _ _ rfl rfl hinv
  · intro s u a h
    have hnoop : add_to_favorites s u a = s := by simp [add_to_favorites, h]
    exact ⟨hnoop, by rw [hnoop]⟩
  · intro s a u l hinv hl
    by_cases hs : (aget s.ads a).isSome
    · exact delete_ad_not_in_favs s a hs u l hl
    · have heq : delete_ad s a = s := by simp [delete_ad, hs]
      rw [heq] at hl
      intro hmem
      exact hs ((invB_iff s).mp hinv (u, l) (mem_of_aget _ _ _ hl) a hmem)

theorem charToDigit_digitChar (d : Nat) (h : d < 10) :
    charToDigit (digitChar d) = some d := by
  interval_cases d <;> rfl

theorem decodeCore_toDecAux (fuel : Nat) :
    ∀ (n a : Nat) (acc : List Char), n < 10 ^ fuel →
      decodeCore a (toDecAux fuel n acc) =
        decodeCore (a * 10 ^ numDigitsAux fuel n + n) acc := by
  induction fuel with
  | zero =>
    intro n a acc h
    simp only [pow_zero, Nat.lt_one_iff] at h
    subst h
    simp [toDecAux, numDigitsAux]
  | succ f ih =>
    intro n a acc h
    by_cases h10 : n < 10
    · simp only [toDecAux, if_pos h10, numDigitsAux, pow_one]
      simp only [decodeCore, charToDigit_digitChar n h10]
    · have hdiv : n / 10 < 10 ^ f := by
        rw [Nat.div_lt_iff_lt_mul (by norm_num)]
        calc n < 10 ^ (f + 1) := h
          _ = 10 ^ f * 10 := by rw [pow_succ]
      simp only [toDecAux, if_neg h10, numDigitsAux]
      rw [ih (n / 10) a (digitChar (n % 10) :: acc) hdiv]
      have hm : n % 10 < 10 := Nat.mod_lt _ (by norm_num)
      simp only [decodeCore, charToDigit_digitChar _ hm]
      congr 1
      rw [pow_succ]
      have hdm : 10 * (n / 10) + n % 10 = n := Nat.div_add_mod n 10
      calc (a * 10 ^ numDigitsAux f (n / 10) + n / 10) * 10 + n % 10
          = a * 10 ^ numDigitsAux f (n / 10) * 10 + (10 * (n / 10) + n % 10) := by ring
        _ = a * 10 ^ numDigitsAux f (n / 10) * 10 + n := by rw [hdm]
        _ = a * (10 ^ numDigitsAux f (n / 10) * 10) + n := by ring

theorem toDecAux_length (fuel : Nat) :
    ∀ (n : Nat) (acc : List Char), 0 < fuel → n < 10 ^ fuel →
      acc.length < (toDecAux fuel n acc).length := by
  induction fuel with
  | zero => intro n acc h _; simp at h
  | succ f ih =>
    intro n acc _ h
    by_cases h10 : n < 10
    · simp [toDecAux, h10]
    · have hdiv : n / 10 < 10 ^ f := by
        rw [Nat.div_lt_iff_lt_mul (by norm_num)]
        calc n < 10 ^ (f + 1) := h
          _ = 10 ^ f * 10 := by rw [pow_succ]
      have hf : 0 < f := by
        rcases Nat.eq_zero_or_pos f with rfl | hf
        · simp only [pow_zero, Nat.lt_one_iff, Nat.div_eq_zero_iff] at hdiv
          omega
        · exact hf
      simp only [toDecAux, if_neg h10]
      have hrec := ih (n / 10) (digitChar (n % 10) :: acc) hf hdiv
      simp only [List.length_cons] at hrec
      omega

theorem decToNat_natToDec (n : Nat) : decToNat (natToDec n) = some n := by
  have hpow : n < 10 ^ (n + 1) := by
    calc n < 10 ^ n := Nat.lt_pow_self (by norm_num) n
      _ ≤ 10 ^ (n + 1) := Nat.pow_le_pow_right (by norm_num) (Nat.le_succ n)
  have hne := toDecAux_length (n + 1) n [] (Nat.succ_pos n) hpow
  have hempty : (toDecAux (n + 1) n []).isEmpty = false := by
    cases hl : toDecAux (n + 1) n [] with
    | nil => rw [hl] at hne; simp at hne
    | cons c cs => rfl
  show (if (toDecAux (n + 1) n []).isEmpty then none
        else decodeCore 0 (toDecAux (n + 1) n [])) = some n
  rw [hempty]
  simp only [Bool.false_eq_true, if_false]
  rw [decodeCore_toDecAux (n + 1) n 0 [] hpow]
  simp [decodeCore]

theorem fromisoformat_isoformat (t : Nat) : fromisoformat (isoformat t) = some t :=
  decToNat_natToDec t

theorem jToPyPlain_pyToJ (v : PyVal) (h : v.isTime = false) :
    jToPyPlain (pyToJ v) = v := by
  cases v <;> simp_all [PyVal.isTime, pyToJ, jToPyPlain]

theorem jToPyTs_pyToJ (v : PyVal) (h : v.isStr = false) :
    jToPyTs (pyToJ v) = v := by
  cases v with
  | time t => simp [pyToJ, jToPyTs, fromisoformat_isoformat]
  | str s => simp [PyVal.isStr] at h
  | _ => rfl

theorem userFromJ_userToJ (u : User) (h : wfUser u = true) :
    userFromJ (userToJ u) = u := by
  obtain ⟨uid, un, st, na, ph, ci, ch, ca, la⟩ := u
  simp only [wfUser, Bool.and_eq_true, Bool.not_eq_true'] at h
  obtain ⟨⟨⟨⟨⟨⟨⟨hun, hst⟩, hna⟩, hph⟩, hci⟩, hch⟩, hca⟩, hla⟩ := h
  simp [userToJ, userFromJ, jlookup, List.find?, jNat, jPlain, jTs,
        jToPyPlain_pyToJ _ hun, jToPyPlain_pyToJ _ hst, jToPyPlain_pyToJ _ hna,
        jToPyPlain_pyToJ _ hph, jToPyPlain_pyToJ _ hci, jToPyPlain_pyToJ _ hch,
        jToPyTs_pyToJ _ hca, jToPyTs_pyToJ _ hla]

theorem jStrList_jarr_map (l : List String) :
    jStrList (some (.jarr (l.map JVal.jstr))) = l := by
  induction l with
  | nil => rfl
  | cons a as_ ih => exact congrArg (a :: ·) ih

theorem adFromJ_adToJ (ad : Ad) (h : wfAd ad = true) :
    adFromJ (adToJ ad) = ad := by
  obtain ⟨aid, ti, mo, ye, pr, de, phs, ips, ths, da, am⟩ := ad
  simp only [wfAd, Bool.and_eq_true, Bool.not_eq_true'] at h
  obtain ⟨⟨⟨⟨hti, hmo⟩, hye⟩, hpr⟩, hde⟩ := h
  simp [adToJ, adFromJ, jlookup, List.find?, jNat, jPlain, jTimeD, jStrD,
        jToPyPlain_pyToJ _ hti, jToPyPlain_pyToJ _ hmo, jToPyPlain_pyToJ _ hye,
        jToPyPlain_pyToJ _ hpr, jToPyPlain_pyToJ _ hde,
        fromisoformat_isoformat, jStrList_jarr_map]

theorem offerFromJ_offerToJ (o : Offer) : offerFromJ (offerToJ o) = o := by
  obtain ⟨ou, op, ok2, oc⟩ := o
  simp [offerToJ, offerFromJ, jlookup, List.find?, jNat, jInt, jStrD, jTimeD,
        fromisoformat_isoformat]

theorem subFromJ_subToJ (sub : Sub) (h : wfSub sub = true) :
    subFromJ (subToJ sub) = sub := by
  obtain ⟨sr, su, smo, spmin, spmax, symin, symax⟩ := sub
  simp only [wfSub, Bool.and_eq_true, Bool.not_eq_true'] at h
  obtain ⟨⟨⟨⟨hmo, hpmin⟩, hpmax⟩, hymin⟩, hymax⟩ := h
  simp [subToJ, subFromJ, jlookup, List.find?, jNat, jPlain,
        jToPyPlain_pyToJ _ hmo, jToPyPlain_pyToJ _ hpmin, jToPyPlain_pyToJ _ hpmax,
        jToPyPlain_pyToJ _ hymin, jToPyPlain_pyToJ _ hymax]

theorem parseNatList_roundtrip (l : List Nat) :
    parseNatList (.jarr (l.map (fun a => JVal.jint a))) = l := by
  induction l with
  | nil => rfl
  | cons a as_ ih => exact congrArg (a :: ·) ih

theorem parseOfferList_roundtrip (l : List Offer) :
    parseOfferList (.jarr (l.map offerToJ)) = l := by
  induction l with
  | nil => rfl
  | cons o os ih =>
    have h0 : parseOfferList (.jarr ((o :: os).map offerToJ)) =
        offerFromJ (offerToJ o) :: parseOfferList (.jarr (os.map offerToJ)) := rfl
    rw [h0, offerFromJ_offerToJ o]
    exact congrArg (o :: ·) ih

theorem parseSubList_roundtrip (l : List Sub) (h : l.all wfSub = true) :
    parseSubList (.jarr (l.map subToJ)) = l := by
  induction l with
  | nil => rfl
  | cons x xs ih =>
    simp only [List.all_cons, Bool.and_eq_true] at h
    have h0 : parseSubList (.jarr ((x :: xs).map subToJ)) =
        subFromJ (subToJ x) :: parseSubList (.jarr (xs.map subToJ)) := rfl
    rw [h0, subFromJ_subToJ x h.1]
    exact congrArg (x :: ·) (ih h.2)

theorem loadMap_go {α : Type} (ser : α → JVal) (parse : JVal → α)
    (m : List (Nat × α)) :
    ∀ acc : List (Nat × α), (akeys m).Nodup →
      (∀ k ∈ akeys m, k ∉ akeys acc) →
      (∀ p ∈ m, parse (ser p.2) = p.2) →
      (m.map (fun p => (natToDec p.1, ser p.2))).foldl
        (fun acc2 p => aset acc2 ((decToNat p.1).getD 0) (parse p.2)) acc =
      acc ++ m := by
  induction m with
  | nil => intro acc _ _ _; simp
  | cons p rest ih =>
    intro acc hnd hdisj hrt
    obtain ⟨k, v⟩ := p
    simp only [akeys, List.map_cons, List.nodup_cons] at hnd
    simp only [List.map_cons, List.foldl_cons]
    rw [decToNat_natToDec, hrt (k, v) (List.mem_cons_self _ _)]
    simp only [Option.getD_some]
    rw [aset_fresh acc k v (hdisj k (List.mem_cons_self _ _))]
    rw [ih (acc ++ [(k, v)]) hnd.2 ?_ (fun q hq => hrt q (List.mem_cons_of_mem _ hq))]
    · simp
    · intro j hj
      simp only [akeys, List.map_append, List.mem_append]
      push_neg
      constructor
      · exact hdisj j (List.mem_cons_of_mem _ hj)
      · simp only [List.map_cons, List.map_nil, List.mem_singleton]
        intro hjk
        subst hjk
        exact hnd.1 hj

theorem loadMap_save {α : Type} (ser : α → JVal) (parse : JVal → α)
    (m : List (Nat × α)) (hnd : (akeys m).Nodup)
    (hrt : ∀ p ∈ m, parse (ser p.2) = p.2) :
    loadMap parse (.jobj (m.map (fun p => (natToDec p.1, ser p.2)))) = m := by
  have h0 : loadMap parse (.jobj (m.map (fun p => (natToDec p.1, ser p.2)))) =
      (m.map (fun p => (natToDec p.1, ser p.2))).foldl
        (fun acc p => aset acc ((decToNat p.1).getD 0) (parse p.2)) [] := rfl
  rw [h0, loadMap_go ser parse m [] hnd (by intro k _ hk; simp [akeys] at hk) hrt]
  simp

/-- Loading right after saving restores every collection, the flag and the
counters exactly (`_load_data ∘ _save_data = id` on well-formed states). -/
theorem load_save (s : DB) (hwf : wfDB s = true) : load (save s) = s := by
  obtain ⟨us, ad, fa, su, bo, ni, ns, po⟩ := s
  simp only [wfDB, Bool.and_eq_true] at hwf
  obtain ⟨⟨⟨⟨⟨⟨⟨hndU, hndA⟩, hndF⟩, hndS⟩, hndP⟩, hallU⟩, hallA⟩, hallS⟩ := hwf
  have hU : loadMap userFromJ
      (.jobj (us.map (fun p => (natToDec p.1, userToJ p.2)))) = us :=
    loadMap_save userToJ userFromJ us (of_decide_eq_true hndU)
      (fun p hp => userFromJ_userToJ p.2 (List.all_eq_true.mp hallU p hp))
  have hA : loadMap adFromJ
      (.jobj (ad.map (fun p => (natToDec p.1, adToJ p.2)))) = ad :=
    loadMap_save adToJ adFromJ ad (of_decide_eq_true hndA)
      (fun p hp => adFromJ_adToJ p.2 (List.all_eq_true.mp hallA p hp))
  have hF : loadMap parseNatList
      (.jobj (fa.map (fun p =>
        (natToDec p.1, JVal.jarr (p.2.map (fun a => JVal.jint a)))))) = fa :=
    loadMap_save (fun l => JVal.jarr (l.map (fun a => JVal.jint a))) parseNatList fa
      (of_decide_eq_true hndF) (fun p _ => parseNatList_roundtrip p.2)
  have hS2 : loadMap parseSubList
      (.jobj (su.map (fun p => (natToDec p.1, JVal.jarr (p.2.map subToJ))))) = su :=
    loadMap_save (fun l => JVal.jarr (l.map subToJ)) parseSubList su
      (of_decide_eq_true hndS)
      (fun p hp => parseSubList_roundtrip p.2 (List.all_eq_true.mp hallS p hp))
  have hP : loadMap parseOfferList
      (.jobj (po.map (fun p => (natToDec p.1, JVal.jarr (p.2.map offerToJ))))) = po :=
    loadMap_save (fun l => JVal.jarr (l.map offerToJ)) parseOfferList po
      (of_decide_eq_true hndP) (fun p _ => parseOfferList_roundtrip p.2)
  simp only [load, save]
  rw [hU, hA, hF, hS2, hP]
  simp [jlookup, List.find?]

/-- The states used to exercise the persistence adapter keep their data
well-formed. -/
theorem dbC2_wf : wfDB dbC2 = true := by decide

theorem restart_reseeds_empty_ads :
    dbC8.ads = [] ∧ (restart (save dbC8) 0).ads.length = 3 ∧
    restart (save dbC8) 0 ≠ dbC8 := by
  refine ⟨rfl, rfl, ?_⟩
  decide

/-- C8 (amended): saving the full state and reloading it (restart) yields
exactly the pre-restart state — all five collections, `bot_open` and both
id counters, with every timestamp parsed back to the same instant —
provided the state is well-formed and holds at least one ad; with no ads,
the restart seeds the three sample listings instead. -/
theorem save_restart_roundtrip (s : DB) (now : Nat)
    (hwf : wfDB s = true) (hads : s.ads ≠ []) :
    restart (save s) now = s := by
  have hl := load_save s hwf
  simp only [restart]
  rw [hl]
  have hempty : s.ads.isEmpty = false := by
    cases hads' : s.ads with
    | nil => exact absurd hads' hads
    | cons a l => rfl
  rw [hempty]
  simp

/-- C8 witness: the one-ad state `dbC2` round-trips exactly through the
persistence adapter and a restart. -/
theorem save_restart_roundtrip_witness :
    wfDB dbC2 = true ∧ dbC2.ads ≠ [] ∧ restart (save dbC2) 0 = dbC2 :=
  ⟨dbC2_wf, by decide, save_restart_roundtrip dbC2 0 dbC2_wf (by decide)⟩

/-- C3 witness: the invariant holds of `dbC2` and is kept by deleting ad 1;
adding a favorite of a nonexistent ad 9 to the empty state changes nothing;
and after the delete, user 7's favorites list no longer holds ad 1. -/
theorem favorites_reference_integrity_witness :
    InvB dbC2 = true ∧ InvB (delete_ad dbC2 1) = true ∧
    add_to_favorites DB.init 7 9 = DB.init ∧
    (1 : Nat) ∉ ([] : List Nat) :=
  ⟨by decide,
   favorites_reference_integrity.1 dbC2 (delete_ad dbC2 1)
     (Step.s_delete_ad dbC2 1) (by decide),
   (favorites_reference_integrity.2.1 DB.init 7 9 rfl).1,
   favorites_reference_integrity.2.2 dbC2 1 7 [] (by decide) rfl⟩

/-- C5 witness: instantiating the amended ordering contract on the empty
initial state with creation times 5 < 9: ad 2 (created second, later
instant) is listed strictly before ad 1. -/
theorem get_ads_sorted_contract_witness :
    (get_ads dbC5w).Pairwise (fun a b => b.added_date ≤ a.added_date) ∧
    ∃ adA adB l₁ l₂,
      aget ((add_ad (add_ad dbC5w (.str "A") (.int 1) (.str "dA") none none none
          (.str "mA") (.int 2000) 5).2
        (.str "B") (.int 2) (.str "dB") none none none (.str "mB") (.int 2001) 9).2).ads 1 =
          some adA ∧
      aget ((add_ad (add_ad dbC5w (.str "A") (.int 1) (.str "dA") none none none
          (.str "mA") (.int 2000) 5).2
        (.str "B") (.int 2) (.str "dB") none none none (.str "mB") (.int 2001) 9).2).ads 2 =
          some adB ∧
      adA.added_date = 5 ∧ adB.added_date = 9 ∧
      get_ads ((add_ad (add_ad dbC5w (.str "A") (.int 1) (.str "dA") none none none
          (.str "mA") (.int 2000) 5).2
        (.str "B") (.int 2) (.str "dB") none none none (.str "mB") (.int 2001) 9).2) =
          l₁ ++ l₂ ∧
      adB ∈ l₁ ∧ adA ∈ l₂ ∧ adA ∉ l₁ ∧ adB ∉ l₂ := by
  have h := get_ads_sorted_contract dbC5w
    (.str "A") (.int 1) (.str "dA") (.str "mA") (.int 2000)
    (.str "B") (.int 2) (.str "dB") (.str "mB") (.int 2001)
    none none none none none none 5 9 (by intro k hk; simp [dbC5w, DB.init, akeys] at hk)
    (by omega)
  exact ⟨h.1, h.2.2 _ _ 1 2 rfl rfl⟩

end BotDB
